import Mathlib

/-!
Shallow embedding of the lightmap baking engine in
`src/common/rendering/vulkan/accelstructs/vk_lightmap.cpp` (class `VkLightmap`).

Float vector math (`FVector2`/`FVector3`) is embedded over `ℚ`.  Machine
buffers are embedded as write positions plus the records handed to each
draw call; GPU commands are embedded as the lists of records/regions/
barriers the code would submit.
-/

namespace VkLightmap

/-- Embedding of `FVector3` (float vector math modelled over `ℚ`). -/
structure Vec3 where
  x : ℚ
  y : ℚ
  z : ℚ
deriving DecidableEq, Repr

instance : Inhabited Vec3 := ⟨⟨0, 0, 0⟩⟩

/-- Embedding of `FVector2`. -/
structure Vec2 where
  x : ℚ
  y : ℚ
deriving DecidableEq, Repr

/-- The `operator|` dot product on `FVector3`. -/
def dot3 (a b : Vec3) : ℚ := a.x * b.x + a.y * b.y + a.z * b.z

/-- Componentwise subtraction `a - b` on `FVector3`. -/
def sub3 (a b : Vec3) : Vec3 := ⟨a.x - b.x, a.y - b.y, a.z - b.z⟩

/-- Componentwise addition on `FVector3`. -/
def add3 (a b : Vec3) : Vec3 := ⟨a.x + b.x, a.y + b.y, a.z + b.z⟩

/-- Scalar multiple on `FVector3`. -/
def smul3 (c : ℚ) (a : Vec3) : Vec3 := ⟨c * a.x, c * a.y, c * a.z⟩

/-- A light affecting a surface (`LevelMeshLight`). -/
structure LevelMeshLight where
  Origin : Vec3
  RelativeOrigin : Vec3
  Radius : ℚ
  Intensity : ℚ
  InnerAngleCos : ℚ
  OuterAngleCos : ℚ
  SpotDir : Vec3
  Color : Vec3
deriving DecidableEq, Repr

/-- The surface type tag (`ST_FLOOR` / `ST_CEILING` / wall kinds). -/
inductive SurfaceType where
  | floor
  | ceiling
  | wall
deriving DecidableEq, Repr

/-- A level-mesh surface (`LevelMeshSurface`); the declaration lives in a
header outside the provided sources, so the fields are those read or
written by `vk_lightmap.cpp`.  `area` stands for the `Area()` accessor,
which is declared outside the provided sources and is kept abstract as a
per-surface value. -/
structure LevelMeshSurface where
  needsUpdate : Bool
  texWidth : Nat
  texHeight : Nat
  atlasX : Nat
  atlasY : Nat
  atlasPageIndex : Nat
  smoothingGroupIndex : Nat
  LightList : List LevelMeshLight
  numVerts : Nat
  startVertIndex : Nat
  surfType : SurfaceType
  plane : Vec3
  boundsMin : Vec3
  boundsMax : Vec3
  worldOrigin : Vec3
  worldStepX : Vec3
  worldStepY : Vec3
  translateWorldToLocal : Vec3
  projLocalToU : Vec3
  projLocalToV : Vec3
  area : Nat
deriving DecidableEq, Repr

instance : Inhabited LevelMeshSurface :=
  ⟨{ needsUpdate := false, texWidth := 0, texHeight := 0, atlasX := 0, atlasY := 0,
     atlasPageIndex := 0, smoothingGroupIndex := 0, LightList := [], numVerts := 0,
     startVertIndex := 0, surfType := .wall, plane := default, boundsMin := default,
     boundsMax := default, worldOrigin := default, worldStepX := default,
     worldStepY := default, translateWorldToLocal := default, projLocalToU := default,
     projLocalToV := default, area := 0 }⟩

/-- A smoothing group: member surfaces, given as indices into the level
mesh's surface array (the C++ holds pointers; pointer identity is array
index identity). -/
structure SmoothingGroup where
  surfaces : List Nat
deriving DecidableEq, Repr

instance : Inhabited SmoothingGroup := ⟨⟨[]⟩⟩

/-- The level mesh inputs read by `VkLightmap`. -/
structure LevelMesh where
  SunDirection : Vec3
  SmoothingGroups : List SmoothingGroup
deriving Repr

/-- `VkLightmap::ToUV` (vk_lightmap.cpp lines 464-470). -/
def ToUV (vert : Vec3) (targetSurface : LevelMeshSurface) : Vec2 :=
  let localPos := sub3 vert targetSurface.translateWorldToLocal
  { x := (1 + dot3 localPos targetSurface.projLocalToU) / (targetSurface.texWidth + 2),
    y := (1 + dot3 localPos targetSurface.projLocalToV) / (targetSurface.texHeight + 2) }

/-- An axis-aligned rectangle of texels, `[x, x+w) × [y, y+h)`. -/
structure Rect where
  x : Nat
  y : Nat
  w : Nat
  h : Nat
deriving DecidableEq, Repr

/-- Two rectangles intersect when both their x-ranges and y-ranges meet. -/
def Rect.overlaps (a b : Rect) : Prop :=
  a.x < b.x + b.w ∧ b.x < a.x + a.w ∧ a.y < b.y + b.h ∧ b.y < a.y + a.h

instance (a b : Rect) : Decidable (a.overlaps b) := instDecidableAnd

/-- Modelled from the spec: the state of `RectPacker` (class declared in a
utility header outside the provided sources).  The spec describes it as "a
single-pass bin-packer (e.g., shelf/guillotine) over the fixed canvas" with
a configured inter-tile spacing; this is a shelf packer: rectangles are
placed left to right on the current shelf, a new shelf opens below the
tallest rectangle of the current one, and `spacing` texels separate both
neighbouring placements and shelves. -/
structure RectPacker where
  width : Nat
  height : Nat
  spacing : Nat
  posX : Nat
  posY : Nat
  rowHeight : Nat
deriving DecidableEq, Repr

/-- Result of `RectPacker::insert`: the page the rectangle landed on and
its position there (the code only keeps placements with `pageIndex == 0`). -/
structure RectPackerResult where
  pageIndex : Nat
  posX : Nat
  posY : Nat
deriving DecidableEq, Repr

/-- Modelled from the spec: `RectPacker::insert` (declared outside the
provided sources).  Places `w × h` on the current shelf if it fits the
canvas there, else opens a new shelf, else reports a later page
(`pageIndex = 1`) and leaves the first page untouched. -/
def RectPacker.insert (p : RectPacker) (w h : Nat) : RectPackerResult × RectPacker :=
  if p.posX + w ≤ p.width ∧ p.posY + h ≤ p.height then
    (⟨0, p.posX, p.posY⟩,
     { p with posX := p.posX + w + p.spacing, rowHeight := max p.rowHeight h })
  else if p.posY + p.rowHeight + p.spacing + h ≤ p.height ∧ w ≤ p.width then
    (⟨0, 0, p.posY + p.rowHeight + p.spacing⟩,
     { p with posX := w + p.spacing, posY := p.posY + p.rowHeight + p.spacing,
              rowHeight := h })
  else
    (⟨1, 0, 0⟩, p)

/-- A fresh packer for one invocation (`RectPacker packer(bakeImageSize,
bakeImageSize, RectPacker::Spacing(spacing))`). -/
def RectPacker.mk0 (size spacing : Nat) : RectPacker :=
  { width := size, height := size, spacing := spacing,
    posX := 0, posY := 0, rowHeight := 0 }

/-- The `spacing` constant of `VkLightmap::SelectSurfaces` (line 101). -/
def spacing : Nat := 3

/-- A `SelectedSurface` record.  The C++ stores a `LevelMeshSurface*`
back-pointer; here `index` is the surface's position in the level mesh
surface array (used for the writes through the pointer) and `surface` is
the pointed-to surface (whose fields read later in the invocation are
never mutated by the engine, so the copy is faithful). -/
structure SelectedSurface where
  index : Nat
  surface : LevelMeshSurface
  X : Nat
  Y : Nat
  Rendered : Bool
deriving DecidableEq, Repr

/-- The `(texWidth+2) × (texHeight+2)` rectangle handed to the packer for a
selected surface; its placement was `(X-1, Y-1)` since `SelectSurfaces`
stores `X = pos.x + 1`, `Y = pos.y + 1`. -/
def paddedRect (s : SelectedSurface) : Rect :=
  ⟨s.X - 1, s.Y - 1, s.surface.texWidth + 2, s.surface.texHeight + 2⟩

/-- Result of `VkLightmap::SelectSurfaces`: the surface array with
`needsUpdate` flags cleared for selections, the selected list, and the
used canvas extent `bakeImage.maxX/maxY`. -/
structure SelectResult where
  surfaces : List LevelMeshSurface
  selected : List SelectedSurface
  maxX : Nat
  maxY : Nat
deriving Repr

/-- The loop of `VkLightmap::SelectSurfaces` (lines 104-126), recursing on
the remaining surfaces with `idx` the index of the head in the original
array. -/
def selectLoop (packer : RectPacker) (idx : Nat) (maxX maxY : Nat) :
    List LevelMeshSurface → SelectResult
  | [] => ⟨[], [], maxX, maxY⟩
  | surface :: rest =>
    if surface.needsUpdate then
      let ins := packer.insert (surface.texWidth + 2) (surface.texHeight + 2)
      if ins.1.pageIndex = 0 then
        let s : SelectedSurface :=
          { index := idx, surface := surface,
            X := ins.1.posX + 1, Y := ins.1.posY + 1, Rendered := false }
        let r := selectLoop ins.2 (idx + 1)
          (max maxX (s.X + surface.texWidth + spacing))
          (max maxY (s.Y + surface.texHeight + spacing)) rest
        ⟨{ surface with needsUpdate := false } :: r.surfaces, s :: r.selected, r.maxX, r.maxY⟩
      else
        let r := selectLoop ins.2 (idx + 1) maxX maxY rest
        ⟨surface :: r.surfaces, r.selected, r.maxX, r.maxY⟩
    else
      let r := selectLoop packer (idx + 1) maxX maxY rest
      ⟨surface :: r.surfaces, r.selected, r.maxX, r.maxY⟩

/-- `VkLightmap::SelectSurfaces` (lines 95-127); `bakeImageSize` is a
constant of the class header (outside the provided sources), so it is a
parameter here. -/
def SelectSurfaces (bakeImageSize : Nat) (surfaces : List LevelMeshSurface) : SelectResult :=
  selectLoop (RectPacker.mk0 bakeImageSize spacing) 0 0 0 surfaces

/-- Arena capacities.  `vertices.BufferSize` and `lights.BufferSize` are
constants of the class header (outside the provided sources), so they are
parameters here. -/
structure Config where
  lightsBufferSize : Nat
  verticesBufferSize : Nat
deriving DecidableEq, Repr

/-- The write positions of the Light and Geometry Arenas (`lights.Pos`,
`vertices.Pos`). -/
structure ArenaState where
  lightsPos : Nat
  verticesPos : Nat
deriving DecidableEq, Repr

/-- `VkLightmap::BeginFrame` (lines 64-68): both arena positions reset to
zero. -/
def BeginFrame : ArenaState := ⟨0, 0⟩

/-- One recorded `draw` call with the arena ranges its push constants and
vertex-buffer offset hand to the GPU.  `target` is the index of the
selected target surface for raytrace draws and `none` for the full-screen
quads of the Resolve and Blur stages (whose push constants set
`LightStart = LightEnd = 0`). -/
structure DrawCall where
  firstVertex : Nat
  vertexCount : Nat
  lightStart : Nat
  lightEnd : Nat
  target : Option Nat
deriving DecidableEq, Repr

/-- The smoothing-group member loop of `VkLightmap::RenderBakeImage`
(lines 167-231): iterates the group's surfaces, culls members whose
projected bounding box misses the unit rectangle, checks arena capacity,
appends lights/vertices and records a draw.  Returns the arena state, the
draws issued, and the `buffersFull` flag. -/
def renderMembers (cfg : Config) (allSurfaces : List LevelMeshSurface)
    (targetSurface : LevelMeshSurface) (targetIdx : Nat) :
    List Nat → ArenaState → ArenaState × List DrawCall × Bool
  | [], st => (st, [], false)
  | j :: rest, st =>
    let surface := allSurfaces.getD j default
    let minUV := ToUV surface.boundsMin targetSurface
    let maxUV := ToUV surface.boundsMax targetSurface
    if j ≠ targetIdx ∧ (maxUV.x < 0 ∨ maxUV.y < 0 ∨ minUV.x > 1 ∨ minUV.y > 1) then
      renderMembers cfg allSurfaces targetSurface targetIdx rest st
    else
      let lightCount := surface.LightList.length
      let vertexCount := surface.numVerts
      if st.lightsPos + lightCount > cfg.lightsBufferSize ∨
          st.verticesPos + vertexCount > cfg.verticesBufferSize then
        (st, [], true)
      else
        let d : DrawCall :=
          { firstVertex := st.verticesPos, vertexCount := vertexCount,
            lightStart := st.lightsPos, lightEnd := st.lightsPos + lightCount,
            target := some targetIdx }
        let r := renderMembers cfg allSurfaces targetSurface targetIdx rest
          ⟨st.lightsPos + lightCount, st.verticesPos + vertexCount⟩
        (r.1, d :: r.2.1, r.2.2)

/-- Write `needsUpdate := true` through the `Surface` back-pointer of a
selected surface (`selectedSurfaces[i].Surface->needsUpdate = true`). -/
def setNeedsUpdateAt (surfs : List LevelMeshSurface) (i : Nat) : List LevelMeshSurface :=
  match surfs.get? i with
  | some s => surfs.set i { s with needsUpdate := true }
  | none => surfs

/-- The re-queue loop run when the arenas fill (`while (i < count) ...`,
lines 235-239): every remaining selected surface's `needsUpdate` is set
back to true. -/
def requeue (surfs : List LevelMeshSurface) : List SelectedSurface → List LevelMeshSurface
  | [] => surfs
  | s :: rest => requeue (setNeedsUpdateAt surfs s.index) rest

/-- The selected-surface loop of `VkLightmap::RenderBakeImage` (lines
146-244): the skip rule for unlit back-facing targets, the member loop,
and on overflow the re-queue of the current and all later selections
followed by early termination. -/
def renderLoop (cfg : Config) (mesh : LevelMesh) :
    List SelectedSurface → List LevelMeshSurface → ArenaState →
    List SelectedSurface × List LevelMeshSurface × ArenaState × List DrawCall
  | [], surfs, st => ([], surfs, st, [])
  | sel :: rest, surfs, st =>
    let targetSurface := sel.surface
    if targetSurface.LightList.isEmpty ∧ dot3 targetSurface.plane mesh.SunDirection < 0 then
      let r := renderLoop cfg mesh rest surfs st
      ({ sel with Rendered := true } :: r.1, r.2.1, r.2.2.1, r.2.2.2)
    else
      let members := (mesh.SmoothingGroups.getD targetSurface.smoothingGroupIndex default).surfaces
      let m := renderMembers cfg surfs targetSurface sel.index members st
      if m.2.2 then
        (sel :: rest, requeue surfs (sel :: rest), m.1, m.2.1)
      else
        let r := renderLoop cfg mesh rest surfs m.1
        ({ sel with Rendered := true } :: r.1, r.2.1, r.2.2.1, m.2.1 ++ r.2.2.2)

/-- The unchecked 4-vertex full-screen-quad append shared by
`ResolveBakeImage` (lines 301-309) and both passes of `BlurBakeImage`
(lines 350-358, 395-403): `vertices.Pos` advances by 4 with no capacity
check, and the draw's push constants carry `LightStart = LightEnd = 0`. -/
def quadAppend (st : ArenaState) : ArenaState × DrawCall :=
  (⟨st.lightsPos, st.verticesPos + 4⟩,
   { firstVertex := st.verticesPos, vertexCount := 4,
     lightStart := 0, lightEnd := 0, target := none })

/-- One `VkImageCopy` region built by `CopyBakeImageResult` (lines
421-434). -/
structure VkImageCopy where
  srcX : Nat
  srcY : Nat
  dstX : Nat
  dstY : Nat
  dstLayer : Nat
  width : Nat
  height : Nat
deriving DecidableEq, Repr

/-- The region copying a rendered selected surface's canvas tile to its
permanent atlas rectangle. -/
def regionOf (s : SelectedSurface) : VkImageCopy :=
  { srcX := s.X, srcY := s.Y,
    dstX := s.surface.atlasX, dstY := s.surface.atlasY,
    dstLayer := s.surface.atlasPageIndex,
    width := s.surface.texWidth, height := s.surface.texHeight }

/-- GPU commands recorded by `CopyBakeImageResult` when it has regions:
the canvas-to-copy-source barrier, per-page layout transitions, and the
`copyImage` carrying all regions. -/
inductive CopyCommand where
  | canvasToSrc
  | pageToDst (page : Nat)
  | copyImage (regions : List VkImageCopy)
  | pageToShaderRead (page : Nat)
deriving DecidableEq, Repr

/-- `std::set<int>::insert`: the pages seen so far, each kept once. -/
def insertPage (pages : List Nat) (x : Nat) : List Nat :=
  if x ∈ pages then pages else pages ++ [x]

/-- `2 ^ 32`: the modulus of the `uint32_t` arithmetic used by the pixel
counters (`uint32_t pixels`, `static uint32_t lastPixelCount`,
`static uint32_t totalPixelCount`, lines 11-16 and 411). -/
def u32 : Nat := 4294967296

/-- The first loop of `CopyBakeImageResult` (lines 415-440) folded over
the selected surfaces: accumulates regions and deduplicated page indices
for the rendered ones, the rendered pixel sum (`uint32_t pixels`, so each
`pixels += surface->Area()` wraps modulo `u32`), and the rendered surface
count. -/
structure CopyScan where
  regions : List VkImageCopy
  pages : List Nat
  pixels : Nat
  surfaceCount : Nat
deriving DecidableEq, Repr

def copyScan : List SelectedSurface → CopyScan
  | [] => ⟨[], [], 0, 0⟩
  | s :: rest =>
    let r := copyScan rest
    if s.Rendered then
      ⟨regionOf s :: r.regions, insertPage r.pages s.surface.atlasPageIndex,
       (s.surface.area + r.pixels) % u32, r.surfaceCount + 1⟩
    else
      r

/-- Everything `VkLightmap::CopyBakeImageResult` (lines 409-462) produces:
the scan results plus the commands submitted (none when `regions` is
empty). -/
structure CopyResult where
  regions : List VkImageCopy
  pages : List Nat
  pixels : Nat
  surfaceCount : Nat
  commands : List CopyCommand
deriving DecidableEq, Repr

def CopyBakeImageResult (selected : List SelectedSurface) : CopyResult :=
  let scan := copyScan selected
  { regions := scan.regions, pages := scan.pages, pixels := scan.pixels,
    surfaceCount := scan.surfaceCount,
    commands :=
      if scan.regions.isEmpty then []
      else
        CopyCommand.canvasToSrc :: scan.pages.map CopyCommand.pageToDst
          ++ [CopyCommand.copyImage scan.regions]
          ++ scan.pages.map CopyCommand.pageToShaderRead }

/-- The telemetry statics `lastSurfaceCount` (an `int`), `lastPixelCount`
and `totalPixelCount` (both `uint32_t`, lines 11-16): the two pixel
counters hold `uint32_t` values, so every accumulation into them wraps
modulo `u32`. -/
structure Telemetry where
  lastSurfaceCount : Nat
  lastPixelCount : Nat
  totalPixelCount : Nat
deriving DecidableEq, Repr

/-- One invocation's observable outcome. -/
structure Invocation where
  surfaces : List LevelMeshSurface
  selected : List SelectedSurface
  arena : ArenaState
  draws : List DrawCall
  regions : List VkImageCopy
  commands : List CopyCommand
  telemetry : Telemetry
deriving Repr

/-- The body of `VkLightmap::Raytrace` run when the selection is non-empty
(lines 81-88): render, resolve, blur (two passes), copy back, updating
the telemetry statics. -/
def RaytraceBody (cfg : Config) (mesh : LevelMesh) (selRes : SelectResult)
    (st0 : ArenaState) (tel : Telemetry) : Invocation :=
  let r := renderLoop cfg mesh selRes.selected selRes.surfaces st0
  let q1 := quadAppend r.2.2.1
  let q2 := quadAppend q1.1
  let q3 := quadAppend q2.1
  let copyRes := CopyBakeImageResult r.1
  ⟨r.2.1, r.1, q3.1, r.2.2.2 ++ [q1.2, q2.2, q3.2], copyRes.regions, copyRes.commands,
   { lastSurfaceCount := copyRes.surfaceCount,
     lastPixelCount := copyRes.pixels,
     totalPixelCount := (tel.totalPixelCount + copyRes.pixels) % u32 }⟩

/-- `VkLightmap::Raytrace` (lines 70-93): select, then — only when the
selection is non-empty — run the bake pipeline body. -/
def Raytrace (cfg : Config) (bakeImageSize : Nat) (mesh : LevelMesh)
    (surfaces : List LevelMeshSurface) (st0 : ArenaState) (tel : Telemetry) : Invocation :=
  if surfaces.isEmpty then
    ⟨surfaces, [], st0, [], [], [], tel⟩
  else
    let selRes := SelectSurfaces bakeImageSize surfaces
    if selRes.selected.isEmpty then
      ⟨selRes.surfaces, [], st0, [], [], [], tel⟩
    else
      RaytraceBody cfg mesh selRes st0 tel

/-- An engine-lifetime event: `SetLevelMesh` (lines 52-62, which resets
the pixel statistics) or one frame (a `BeginFrame` followed by one
`Raytrace` invocation). -/
inductive Event where
  | setLevelMesh
  | frame (cfg : Config) (bakeImageSize : Nat) (mesh : LevelMesh)
      (surfaces : List LevelMeshSurface)

/-- How one event transforms the telemetry statics. -/
def engineStep (tel : Telemetry) : Event → Telemetry
  | .setLevelMesh => ⟨0, 0, 0⟩
  | .frame cfg size mesh surfaces => (Raytrace cfg size mesh surfaces BeginFrame tel).telemetry

/-- The telemetry statics after a sequence of events. -/
def engineRun (tel : Telemetry) : List Event → Telemetry
  | [] => tel
  | e :: rest => engineRun (engineStep tel e) rest

/-- The pixel contribution of an event: the `uint32_t` sum of `Area()`
over the surfaces the frame's invocation marks rendered — the exact sum
reduced modulo `u32` (zero for `setLevelMesh` and for frames that select
nothing). -/
def eventPixels : Event → Nat
  | .setLevelMesh => 0
  | .frame cfg size mesh surfaces =>
    ((((Raytrace cfg size mesh surfaces BeginFrame ⟨0, 0, 0⟩).selected.filter
      (·.Rendered)).map (·.surface.area)).sum) % u32

/-! ### Concrete inputs used by witnesses and counterexamples -/

/-- A concrete light record. -/
def exLight : LevelMeshLight :=
  { Origin := ⟨0, 0, 0⟩, RelativeOrigin := ⟨0, 0, 0⟩, Radius := 1, Intensity := 1,
    InnerAngleCos := 0, OuterAngleCos := 0, SpotDir := ⟨0, 0, 0⟩, Color := ⟨0, 0, 0⟩ }

/-- A 1×1 surface with no lights whose plane `(0,0,1)` faces away from the
sun direction `(0,0,-1)`: the skip rule applies to it. -/
def exSkipSurf : LevelMeshSurface :=
  { needsUpdate := true, texWidth := 1, texHeight := 1, atlasX := 5, atlasY := 6,
    atlasPageIndex := 2, smoothingGroupIndex := 0, LightList := [], numVerts := 4,
    startVertIndex := 0, surfType := .wall, plane := ⟨0, 0, 1⟩, boundsMin := ⟨0, 0, 0⟩,
    boundsMax := ⟨0, 0, 0⟩, worldOrigin := ⟨0, 0, 0⟩, worldStepX := ⟨0, 0, 0⟩,
    worldStepY := ⟨0, 0, 0⟩, translateWorldToLocal := ⟨0, 0, 0⟩, projLocalToU := ⟨0, 0, 0⟩,
    projLocalToV := ⟨0, 0, 0⟩, area := 1 }

/-- `exSkipSurf` with one light: the skip rule does not apply, and its
smoothing-group members are appended to the arenas. -/
def exLitSurf : LevelMeshSurface := { exSkipSurf with LightList := [exLight] }

/-- A group member that is never itself selected but carries 10 vertices,
enough to overflow a small Geometry Arena. -/
def exBigSurf : LevelMeshSurface :=
  { exSkipSurf with needsUpdate := false, numVerts := 10, LightList := [] }

/-- A mesh whose single smoothing group holds surfaces 0 and 1. -/
def exMeshPair : LevelMesh := { SunDirection := ⟨0, 0, -1⟩, SmoothingGroups := [⟨[0, 1]⟩] }

/-- A mesh whose single smoothing group holds surface 0 only. -/
def exMeshSolo : LevelMesh := { SunDirection := ⟨0, 0, -1⟩, SmoothingGroups := [⟨[0]⟩] }

/-- A quad surface whose projection vectors are dual to its world step
vectors, used for the UV round-trip witness. -/
def exQuadSurf : LevelMeshSurface :=
  { exSkipSurf with
    texWidth := 2, texHeight := 3,
    worldStepX := ⟨1, 0, 0⟩, worldStepY := ⟨0, 1, 0⟩,
    projLocalToU := ⟨1, 0, 0⟩, projLocalToV := ⟨0, 1, 0⟩,
    worldOrigin := ⟨0, 0, 0⟩, translateWorldToLocal := ⟨0, 0, 0⟩ }

/-- `{ s with Rendered := true }`: how the raytrace loop marks a selected
surface rendered. -/
def markRendered (s : SelectedSurface) : SelectedSurface := { s with Rendered := true }

/-- Two half-open index ranges `[s1, e1)` and `[s2, e2)` share no index. -/
def rangesDisjoint (s1 e1 s2 e2 : Nat) : Prop :=
  ∀ k, ¬(s1 ≤ k ∧ k < e1 ∧ s2 ≤ k ∧ k < e2)

/-- The shelf-packer invariant tying the packer state to the rectangles
already placed on page 0: every placed rectangle lies on the current or an
earlier shelf, earlier shelves end at or above the current shelf's top,
the current shelf's rectangles end left of the write position, and no
rectangle pokes below the current shelf's extent. -/
structure PackerInv (p : RectPacker) (placed : List Rect) : Prop where
  le_pos : ∀ r ∈ placed, r.y ≤ p.posY
  row : ∀ r ∈ placed, r.y + r.h ≤ p.posY + p.rowHeight
  prev : ∀ r ∈ placed, r.y < p.posY → r.y + r.h ≤ p.posY
  cur : ∀ r ∈ placed, r.y = p.posY → r.x + r.w ≤ p.posX

/-- The arena-append discipline between two write positions: the
positions only grow, each by exactly the records its draws wrote; every
draw's ranges sit between the two positions (a light range may instead be
empty, as in the Resolve/Blur quads); and the draws appear in
appended order. -/
structure ArenaChain (st st' : ArenaState) (ds : List DrawCall) : Prop where
  lights_le : st.lightsPos ≤ st'.lightsPos
  verts_le : st.verticesPos ≤ st'.verticesPos
  lights_sum : st'.lightsPos
    = st.lightsPos + (ds.map fun d => d.lightEnd - d.lightStart).sum
  verts_sum : st'.verticesPos = st.verticesPos + (ds.map fun d => d.vertexCount).sum
  bounds : ∀ d ∈ ds, st.verticesPos ≤ d.firstVertex
    ∧ d.firstVertex + d.vertexCount ≤ st'.verticesPos
    ∧ d.lightStart ≤ d.lightEnd ∧ d.lightEnd ≤ st'.lightsPos
    ∧ (st.lightsPos ≤ d.lightStart ∨ d.lightEnd ≤ d.lightStart)
  ordered : ds.Pairwise fun a b => a.firstVertex + a.vertexCount ≤ b.firstVertex
    ∧ (a.lightEnd ≤ b.lightStart ∨ b.lightEnd ≤ b.lightStart)

end VkLightmap

namespace VkLightmap

/-! ### Vector algebra helper lemmas -/

theorem dot3_sub_left (a b c : Vec3) : dot3 (sub3 a b) c = dot3 a c - dot3 b c := by
  simp only [dot3, sub3]; ring

theorem dot3_add_left (a b c : Vec3) : dot3 (add3 a b) c = dot3 a c + dot3 b c := by
  simp only [dot3, add3]; ring

theorem dot3_smul_left (q : ℚ) (a c : Vec3) : dot3 (smul3 q a) c = q * dot3 a c := by
  simp only [dot3, smul3]; ring

/-! ### C8 — UV round trip -/

/-- C8: for a surface whose projection vectors are dual to its world step
vectors (`worldStepX ⬝ projLocalToU = 1`, `worldStepY ⬝ projLocalToV = 1`,
zero cross terms, `translateWorldToLocal = worldOrigin`), `ToUV` maps the
padded-rectangle corner `worldOrigin - worldStepX - worldStepY` to UV
`(0,0)` and the opposite corner
`worldOrigin + (texWidth+1)·worldStepX + (texHeight+1)·worldStepY` to UV
`(1,1)` (exactly, over the rational embedding of the float math). -/
theorem C8_uv_round_trip (s : LevelMeshSurface)
    (hU : dot3 s.worldStepX s.projLocalToU = 1)
    (hV : dot3 s.worldStepY s.projLocalToV = 1)
    (hXV : dot3 s.worldStepX s.projLocalToV = 0)
    (hYU : dot3 s.worldStepY s.projLocalToU = 0)
    (hT : s.translateWorldToLocal = s.worldOrigin) :
    ToUV (sub3 (sub3 s.worldOrigin s.worldStepX) s.worldStepY) s = ⟨0, 0⟩ ∧
    ToUV (add3 s.worldOrigin (add3 (smul3 ((s.texWidth : ℚ) + 1) s.worldStepX)
      (smul3 ((s.texHeight : ℚ) + 1) s.worldStepY))) s = ⟨1, 1⟩ := by
  have hw : ((s.texWidth : ℚ) + 2) ≠ 0 := by positivity
  have hh : ((s.texHeight : ℚ) + 2) ≠ 0 := by positivity
  constructor
  · have h1 : dot3 (sub3 (sub3 (sub3 s.worldOrigin s.worldStepX) s.worldStepY)
        s.worldOrigin) s.projLocalToU = -1 := by
      simp only [dot3_sub_left, hU, hYU]; ring
    have h2 : dot3 (sub3 (sub3 (sub3 s.worldOrigin s.worldStepX) s.worldStepY)
        s.worldOrigin) s.projLocalToV = -1 := by
      simp only [dot3_sub_left, hV, hXV]; ring
    simp only [ToUV, hT, h1, h2, Vec2.mk.injEq]
    norm_num
  · have h1 : dot3 (sub3 (add3 s.worldOrigin (add3 (smul3 ((s.texWidth : ℚ) + 1) s.worldStepX)
        (smul3 ((s.texHeight : ℚ) + 1) s.worldStepY))) s.worldOrigin) s.projLocalToU
        = (s.texWidth : ℚ) + 1 := by
      simp only [dot3_sub_left, dot3_add_left, dot3_smul_left, hU, hYU]; ring
    have h2 : dot3 (sub3 (add3 s.worldOrigin (add3 (smul3 ((s.texWidth : ℚ) + 1) s.worldStepX)
        (smul3 ((s.texHeight : ℚ) + 1) s.worldStepY))) s.worldOrigin) s.projLocalToV
        = (s.texHeight : ℚ) + 1 := by
      simp only [dot3_sub_left, dot3_add_left, dot3_smul_left, hV, hXV]; ring
    simp only [ToUV, hT, h1, h2, Vec2.mk.injEq]
    constructor <;> field_simp <;> ring

/-- Witness for C8 at the concrete dual-basis quad `exQuadSurf`. -/
theorem C8_uv_round_trip_witness :
    ToUV (sub3 (sub3 exQuadSurf.worldOrigin exQuadSurf.worldStepX) exQuadSurf.worldStepY)
      exQuadSurf = ⟨0, 0⟩ ∧
    ToUV (add3 exQuadSurf.worldOrigin
      (add3 (smul3 ((exQuadSurf.texWidth : ℚ) + 1) exQuadSurf.worldStepX)
        (smul3 ((exQuadSurf.texHeight : ℚ) + 1) exQuadSurf.worldStepY))) exQuadSurf
      = ⟨1, 1⟩ :=
  C8_uv_round_trip exQuadSurf
    (by simp [dot3, exQuadSurf, exSkipSurf])
    (by simp [dot3, exQuadSurf, exSkipSurf])
    (by simp [dot3, exQuadSurf, exSkipSurf])
    (by simp [dot3, exQuadSurf, exSkipSurf])
    rfl

/-! ### C2 — packer no-overlap invariant -/

theorem Rect.overlaps_comm (a b : Rect) : a.overlaps b ↔ b.overlaps a := by
  unfold Rect.overlaps; tauto

theorem PackerInv.empty (p : RectPacker) : PackerInv p [] :=
  ⟨by simp, by simp, by simp, by simp⟩

/-- A successful `insert` preserves the invariant and places a rectangle
disjoint from everything already placed. -/
theorem RectPacker.insert_spec (p : RectPacker) (w h : Nat) (placed : List Rect)
    (hs : 0 < p.spacing) (hinv : PackerInv p placed)
    (h0 : (p.insert w h).1.pageIndex = 0) :
    (p.insert w h).2.spacing = p.spacing ∧
    PackerInv (p.insert w h).2
      (⟨(p.insert w h).1.posX, (p.insert w h).1.posY, w, h⟩ :: placed) ∧
    ∀ r ∈ placed, ¬ Rect.overlaps ⟨(p.insert w h).1.posX, (p.insert w h).1.posY, w, h⟩ r := by
  by_cases hc1 : p.posX + w ≤ p.width ∧ p.posY + h ≤ p.height
  · simp only [RectPacker.insert, if_pos hc1]
    refine ⟨trivial, ⟨?_, ?_, ?_, ?_⟩, ?_⟩
    · intro r hr
      rcases List.mem_cons.mp hr with rfl | hr
      · exact le_refl _
      · exact hinv.le_pos r hr
    · intro r hr
      rcases List.mem_cons.mp hr with rfl | hr
      · simp only; omega
      · have := hinv.row r hr; simp only; omega
    · intro r hr hlt
      rcases List.mem_cons.mp hr with rfl | hr
      · exact absurd hlt (lt_irrefl _)
      · exact hinv.prev r hr hlt
    · intro r hr heq
      rcases List.mem_cons.mp hr with rfl | hr
      · simp only; omega
      · have := hinv.cur r hr heq; simp only; omega
    · intro r hr hov
      simp only [Rect.overlaps] at hov
      rcases eq_or_lt_of_le (hinv.le_pos r hr) with heq | hlt
      · have := hinv.cur r hr heq
        omega
      · have := hinv.prev r hr hlt
        omega
  · by_cases hc2 : p.posY + p.rowHeight + p.spacing + h ≤ p.height ∧ w ≤ p.width
    · simp only [RectPacker.insert, if_neg hc1, if_pos hc2]
      refine ⟨trivial, ⟨?_, ?_, ?_, ?_⟩, ?_⟩
      · intro r hr
        rcases List.mem_cons.mp hr with rfl | hr
        · exact le_refl _
        · have := hinv.le_pos r hr; simp only; omega
      · intro r hr
        rcases List.mem_cons.mp hr with rfl | hr
        · simp only; omega
        · have := hinv.row r hr; simp only; omega
      · intro r hr hlt
        rcases List.mem_cons.mp hr with rfl | hr
        · exact absurd hlt (lt_irrefl _)
        · have := hinv.row r hr; simp only; omega
      · intro r hr heq
        rcases List.mem_cons.mp hr with rfl | hr
        · simp only; omega
        · have h1 := hinv.le_pos r hr
          have h2 := hinv.row r hr
          simp only at heq
          omega
      · intro r hr hov
        simp only [Rect.overlaps] at hov
        have h1 := hinv.row r hr
        omega
    · exfalso
      simp only [RectPacker.insert, if_neg hc1, if_neg hc2] at h0
      exact one_ne_zero h0

/-- Every pair of surfaces selected by the packing loop has disjoint
padded rectangles, and all of them avoid the rectangles already placed. -/
theorem selectLoop_no_overlap (l : List LevelMeshSurface) :
    ∀ (p : RectPacker) (idx mX mY : Nat) (placed : List Rect),
      0 < p.spacing → PackerInv p placed →
      (∀ s ∈ (selectLoop p idx mX mY l).selected, ∀ r ∈ placed,
        ¬ (paddedRect s).overlaps r) ∧
      (selectLoop p idx mX mY l).selected.Pairwise
        (fun a b => ¬ (paddedRect a).overlaps (paddedRect b)) := by
  induction l with
  | nil =>
    intro p idx mX mY placed hs hinv
    simp [selectLoop]
  | cons surface rest ih =>
    intro p idx mX mY placed hs hinv
    by_cases hu : surface.needsUpdate
    · by_cases h0 : (p.insert (surface.texWidth + 2) (surface.texHeight + 2)).1.pageIndex = 0
      · obtain ⟨hsp, hinv', hnov⟩ :=
          RectPacker.insert_spec p (surface.texWidth + 2) (surface.texHeight + 2) placed hs hinv h0
        have hs' : 0 < (p.insert (surface.texWidth + 2) (surface.texHeight + 2)).2.spacing := by
          rw [hsp]; exact hs
        obtain ⟨avoid, pw⟩ := ih (p.insert (surface.texWidth + 2) (surface.texHeight + 2)).2
          (idx + 1)
          (max mX ((p.insert (surface.texWidth + 2) (surface.texHeight + 2)).1.posX + 1
            + surface.texWidth + spacing))
          (max mY ((p.insert (surface.texWidth + 2) (surface.texHeight + 2)).1.posY + 1
            + surface.texHeight + spacing))
          (⟨(p.insert (surface.texWidth + 2) (surface.texHeight + 2)).1.posX,
            (p.insert (surface.texWidth + 2) (surface.texHeight + 2)).1.posY,
            surface.texWidth + 2, surface.texHeight + 2⟩ :: placed) hs' hinv'
        have hpad : paddedRect
            { index := idx, surface := surface,
              X := (p.insert (surface.texWidth + 2) (surface.texHeight + 2)).1.posX + 1,
              Y := (p.insert (surface.texWidth + 2) (surface.texHeight + 2)).1.posY + 1,
              Rendered := false }
            = ⟨(p.insert (surface.texWidth + 2) (surface.texHeight + 2)).1.posX,
               (p.insert (surface.texWidth + 2) (surface.texHeight + 2)).1.posY,
               surface.texWidth + 2, surface.texHeight + 2⟩ := by
          simp [paddedRect]
        constructor
        · intro s hsmem r hr
          simp only [selectLoop, hu, if_true, h0, if_pos, List.mem_cons] at hsmem
          rcases hsmem with rfl | hsmem
          · rw [hpad]; exact hnov r hr
          · exact avoid s hsmem r (List.mem_cons_of_mem _ hr)
        · simp only [selectLoop, hu, if_true, h0, if_pos]
          refine List.pairwise_cons.mpr ⟨?_, pw⟩
          intro b hb
          rw [hpad]
          have hb' := avoid b hb _ (List.mem_cons_self _ _)
          intro hov
          exact hb' ((Rect.overlaps_comm _ _).mp hov)
      · have hsame : (p.insert (surface.texWidth + 2) (surface.texHeight + 2)).2 = p := by
          by_cases hc1 : p.posX + (surface.texWidth + 2) ≤ p.width
              ∧ p.posY + (surface.texHeight + 2) ≤ p.height
          · exact absurd (by simp [RectPacker.insert, hc1]) h0
          · by_cases hc2 : p.posY + p.rowHeight + p.spacing + (surface.texHeight + 2) ≤ p.height
                ∧ surface.texWidth + 2 ≤ p.width
            · exact absurd (by simp [RectPacker.insert, hc1, hc2]) h0
            · simp [RectPacker.insert, hc1, hc2]
        obtain ⟨avoid, pw⟩ := ih (p.insert (surface.texWidth + 2) (surface.texHeight + 2)).2
          (idx + 1) mX mY placed (by rw [hsame]; exact hs) (by rw [hsame]; exact hinv)
        constructor
        · intro s hsmem r hr
          simp only [selectLoop, hu, if_true, h0, if_false] at hsmem
          exact avoid s hsmem r hr
        · simp only [selectLoop, hu, if_true, h0, if_false]
          exact pw
    · rw [Bool.not_eq_true] at hu
      obtain ⟨avoid, pw⟩ := ih p (idx + 1) mX mY placed hs hinv
      constructor
      · intro s hsmem r hr
        simp only [selectLoop, hu, Bool.false_eq_true, if_false] at hsmem
        exact avoid s hsmem r hr
      · simp only [selectLoop, hu, Bool.false_eq_true, if_false]
        exact pw

/-- C2: the padded `(texWidth+2) × (texHeight+2)` rectangles, placed with
the configured inter-tile spacing, of the Selected Surfaces produced by
one invocation's packing pass are pairwise non-intersecting. -/
theorem C2_no_overlap (bakeImageSize : Nat) (surfaces : List LevelMeshSurface) :
    (SelectSurfaces bakeImageSize surfaces).selected.Pairwise
      (fun a b => ¬ (paddedRect a).overlaps (paddedRect b)) :=
  (selectLoop_no_overlap surfaces (RectPacker.mk0 bakeImageSize spacing) 0 0 0 []
    (by norm_num [RectPacker.mk0, spacing]) (PackerInv.empty _)).2

/-! ### C4 — selection semantics -/

/-- Structural facts about the selection loop: the output array has the
input's length; selections are listed in increasing index order, start
un-`Rendered` with positions offset one texel into the padded placement;
each selected index points at a dirty input surface whose flag the output
clears; and every non-selected position passes through untouched. -/
theorem selectLoop_spec (l : List LevelMeshSurface) :
    ∀ (p : RectPacker) (idx mX mY : Nat),
      (selectLoop p idx mX mY l).surfaces.length = l.length ∧
      (selectLoop p idx mX mY l).selected.Pairwise (fun a b => a.index < b.index) ∧
      (∀ s ∈ (selectLoop p idx mX mY l).selected,
        s.Rendered = false ∧ 1 ≤ s.X ∧ 1 ≤ s.Y ∧
        ∃ j, s.index = idx + j ∧
          l.get? j = some s.surface ∧ s.surface.needsUpdate = true ∧
          (selectLoop p idx mX mY l).surfaces.get? j
            = some { s.surface with needsUpdate := false }) ∧
      (∀ j, (∀ s ∈ (selectLoop p idx mX mY l).selected, s.index ≠ idx + j) →
        (selectLoop p idx mX mY l).surfaces.get? j = l.get? j) := by
  induction l with
  | nil =>
    intro p idx mX mY
    simp [selectLoop]
  | cons surface rest ih =>
    intro p idx mX mY
    by_cases hu : surface.needsUpdate
    · by_cases h0 : (p.insert (surface.texWidth + 2) (surface.texHeight + 2)).1.pageIndex = 0
      · obtain ⟨hlen, hpw, hsel, hpass⟩ :=
          ih (p.insert (surface.texWidth + 2) (surface.texHeight + 2)).2 (idx + 1)
            (max mX ((p.insert (surface.texWidth + 2) (surface.texHeight + 2)).1.posX + 1
              + surface.texWidth + spacing))
            (max mY ((p.insert (surface.texWidth + 2) (surface.texHeight + 2)).1.posY + 1
              + surface.texHeight + spacing))
        simp only [selectLoop, hu, if_true, h0, if_pos]
        refine ⟨by simpa using hlen, ?_, ?_, ?_⟩
        · refine List.pairwise_cons.mpr ⟨?_, hpw⟩
          intro b hb
          obtain ⟨_, _, _, j, hbj, _⟩ := hsel b hb
          simp only
          omega
        · intro s hs
          rcases List.mem_cons.mp hs with rfl | hs
          · refine ⟨rfl, by simp, by simp, 0, by simp, by simp, hu, by simp⟩
          · obtain ⟨hrf, hx, hy, j, hj, hget, hnu, hset⟩ := hsel s hs
            exact ⟨hrf, hx, hy, j + 1, by omega, by simpa using hget, hnu, by simpa using hset⟩
        · intro j hj
          match j with
          | 0 =>
            exfalso
            exact hj _ (List.mem_cons_self _ _) (by simp)
          | j' + 1 =>
            have := hpass j' (fun s hs => ?_)
            · simpa using this
            · have h := hj s (List.mem_cons_of_mem _ hs)
              omega
      · obtain ⟨hlen, hpw, hsel, hpass⟩ :=
          ih (p.insert (surface.texWidth + 2) (surface.texHeight + 2)).2 (idx + 1) mX mY
        simp only [selectLoop, hu, if_true, h0, if_false]
        refine ⟨by simpa using hlen, hpw, ?_, ?_⟩
        · intro s hs
          obtain ⟨hrf, hx, hy, j, hj, hget, hnu, hset⟩ := hsel s hs
          exact ⟨hrf, hx, hy, j + 1, by omega, by simpa using hget, hnu, by simpa using hset⟩
        · intro j hj
          match j with
          | 0 => simp
          | j' + 1 =>
            have := hpass j' (fun s hs => ?_)
            · simpa using this
            · have h := hj s hs
              omega
    · rw [Bool.not_eq_true] at hu
      obtain ⟨hlen, hpw, hsel, hpass⟩ := ih p (idx + 1) mX mY
      simp only [selectLoop, hu, Bool.false_eq_true, if_false]
      refine ⟨by simpa using hlen, hpw, ?_, ?_⟩
      · intro s hs
        obtain ⟨hrf, hx, hy, j, hj, hget, hnu, hset⟩ := hsel s hs
        exact ⟨hrf, hx, hy, j + 1, by omega, by simpa using hget, hnu, by simpa using hset⟩
      · intro j hj
        match j with
        | 0 => simp
        | j' + 1 =>
          have := hpass j' (fun s hs => ?_)
          · simpa using this
          · have h := hj s hs
            omega

/-- Selection semantics of `SelectSurfaces`, shared by several proofs:
in-order scan, dirty-only candidates, clear-on-fit, pass-through
otherwise. -/
theorem SelectSurfaces_spec (bakeImageSize : Nat) (surfaces : List LevelMeshSurface) :
    (SelectSurfaces bakeImageSize surfaces).selected.Pairwise (fun a b => a.index < b.index) ∧
    (∀ s ∈ (SelectSurfaces bakeImageSize surfaces).selected,
      surfaces.get? s.index = some s.surface ∧ s.surface.needsUpdate = true ∧
      s.Rendered = false ∧ 1 ≤ s.X ∧ 1 ≤ s.Y ∧
      (SelectSurfaces bakeImageSize surfaces).surfaces.get? s.index
        = some { s.surface with needsUpdate := false }) ∧
    (∀ j, (∀ s ∈ (SelectSurfaces bakeImageSize surfaces).selected, s.index ≠ j) →
      (SelectSurfaces bakeImageSize surfaces).surfaces.get? j = surfaces.get? j) := by
  obtain ⟨hlen, hpw, hsel, hpass⟩ :=
    selectLoop_spec surfaces (RectPacker.mk0 bakeImageSize spacing) 0 0 0
  refine ⟨hpw, ?_, ?_⟩
  · intro s hs
    obtain ⟨hrf, hx, hy, j, hj, hget, hnu, hset⟩ := hsel s hs
    rw [Nat.zero_add] at hj
    subst hj
    exact ⟨hget, hnu, hrf, hx, hy, hset⟩
  · intro j hj
    exact hpass j (fun s hs => by simpa using hj s hs)

/-- C4: `SelectSurfaces` scans the input in order, considers only dirty
surfaces, on a first-page fit appends the surface to the selection (with
the placement offset by the one-texel pad) and clears its `needsUpdate`;
everything else — including dirty candidates that did not fit — passes
through with `needsUpdate` untouched. -/
theorem C4_select_semantics (bakeImageSize : Nat) (surfaces : List LevelMeshSurface) :
    (SelectSurfaces bakeImageSize surfaces).selected.Pairwise (fun a b => a.index < b.index) ∧
    (∀ s ∈ (SelectSurfaces bakeImageSize surfaces).selected,
      surfaces.get? s.index = some s.surface ∧ s.surface.needsUpdate = true ∧
      s.Rendered = false ∧ 1 ≤ s.X ∧ 1 ≤ s.Y ∧
      (SelectSurfaces bakeImageSize surfaces).surfaces.get? s.index
        = some { s.surface with needsUpdate := false }) ∧
    (∀ j, (∀ s ∈ (SelectSurfaces bakeImageSize surfaces).selected, s.index ≠ j) →
      (SelectSurfaces bakeImageSize surfaces).surfaces.get? j = surfaces.get? j) :=
  SelectSurfaces_spec bakeImageSize surfaces

/-! ### Arena chaining -/

theorem ArenaChain.refl (st : ArenaState) : ArenaChain st st [] :=
  ⟨le_refl _, le_refl _, by simp, by simp, by simp, by simp⟩

theorem ArenaChain.append {st1 st2 st3 : ArenaState} {ds ds' : List DrawCall}
    (h1 : ArenaChain st1 st2 ds) (h2 : ArenaChain st2 st3 ds') :
    ArenaChain st1 st3 (ds ++ ds') := by
  refine ⟨le_trans h1.lights_le h2.lights_le, le_trans h1.verts_le h2.verts_le, ?_, ?_, ?_, ?_⟩
  · simp [h2.lights_sum, h1.lights_sum, Nat.add_assoc]
  · simp [h2.verts_sum, h1.verts_sum, Nat.add_assoc]
  · intro d hd
    rcases List.mem_append.mp hd with hd | hd
    · obtain ⟨b1, b2, b3, b4, b5⟩ := h1.bounds d hd
      refine ⟨b1, le_trans b2 h2.verts_le, b3, le_trans b4 h2.lights_le, ?_⟩
      rcases b5 with b5 | b5
      · exact Or.inl b5
      · exact Or.inr b5
    · obtain ⟨b1, b2, b3, b4, b5⟩ := h2.bounds d hd
      refine ⟨le_trans h1.verts_le b1, b2, b3, b4, ?_⟩
      rcases b5 with b5 | b5
      · exact Or.inl (le_trans h1.lights_le b5)
      · exact Or.inr b5
  · rw [List.pairwise_append]
    refine ⟨h1.ordered, h2.ordered, ?_⟩
    intro a ha b hb
    obtain ⟨a1, a2, a3, a4, a5⟩ := h1.bounds a ha
    obtain ⟨b1, b2, b3, b4, b5⟩ := h2.bounds b hb
    refine ⟨le_trans a2 b1, ?_⟩
    rcases b5 with b5 | b5
    · exact Or.inl (le_trans a4 b5)
    · exact Or.inr b5

/-- Prepending a draw that wrote `lc` lights and `vc` vertices at `st`. -/
theorem ArenaChain.cons_draw {st st' : ArenaState} {ds : List DrawCall}
    (lc vc : Nat) (t : Option Nat)
    (h : ArenaChain ⟨st.lightsPos + lc, st.verticesPos + vc⟩ st' ds) :
    ArenaChain st st'
      ({ firstVertex := st.verticesPos, vertexCount := vc,
         lightStart := st.lightsPos, lightEnd := st.lightsPos + lc, target := t } :: ds) := by
  have hl2 : st.lightsPos + lc ≤ st'.lightsPos := h.lights_le
  have hv2 : st.verticesPos + vc ≤ st'.verticesPos := h.verts_le
  have hlsum : st'.lightsPos = st.lightsPos + lc
      + (ds.map fun d => d.lightEnd - d.lightStart).sum := h.lights_sum
  have hvsum : st'.verticesPos = st.verticesPos + vc
      + (ds.map fun d => d.vertexCount).sum := h.verts_sum
  refine ⟨by omega, by omega, ?_, ?_, ?_, ?_⟩
  · simp only [List.map_cons, List.sum_cons]
    omega
  · simp only [List.map_cons, List.sum_cons]
    omega
  · intro d hd
    rcases List.mem_cons.mp hd with rfl | hd
    · exact ⟨le_refl _, hv2, Nat.le_add_right _ _, hl2, Or.inl (le_refl _)⟩
    · obtain ⟨b1, b2, b3, b4, b5⟩ := h.bounds d hd
      have b1' : st.verticesPos + vc ≤ d.firstVertex := b1
      refine ⟨by omega, b2, b3, b4, ?_⟩
      rcases b5 with b5 | b5
      · have b5' : st.lightsPos + lc ≤ d.lightStart := b5
        exact Or.inl (by omega)
      · exact Or.inr b5
  · refine List.pairwise_cons.mpr ⟨?_, h.ordered⟩
    intro b hb
    obtain ⟨b1, b2, b3, b4, b5⟩ := h.bounds b hb
    have b1' : st.verticesPos + vc ≤ b.firstVertex := b1
    refine ⟨b1', ?_⟩
    rcases b5 with b5 | b5
    · have b5' : st.lightsPos + lc ≤ b.lightStart := b5
      exact Or.inl b5'
    · exact Or.inr b5

/-- The unchecked Resolve/Blur quad append is still a chained write of 4
vertices with an empty light range. -/
theorem quadAppend_chain (st : ArenaState) :
    ArenaChain st (quadAppend st).1 [(quadAppend st).2] := by
  refine ⟨le_refl _, by simp [quadAppend], by simp [quadAppend], by simp [quadAppend], ?_, ?_⟩
  · intro d hd
    rcases List.mem_cons.mp hd with rfl | hd
    · exact ⟨le_refl _, le_refl _, le_refl _, Nat.zero_le _, Or.inr (le_refl _)⟩
    · simp at hd
  · simp

/-- The smoothing-group member loop only appends: its output arena chains
from its input arena through the draws it issues, and all its draws
target the loop's target surface. -/
theorem renderMembers_chain (cfg : Config) (allS : List LevelMeshSurface)
    (tS : LevelMeshSurface) (tIdx : Nat) :
    ∀ (members : List Nat) (st : ArenaState),
      ArenaChain st (renderMembers cfg allS tS tIdx members st).1
        (renderMembers cfg allS tS tIdx members st).2.1 ∧
      ∀ d ∈ (renderMembers cfg allS tS tIdx members st).2.1, d.target = some tIdx := by
  intro members
  induction members with
  | nil =>
    intro st
    exact ⟨ArenaChain.refl st, by intro d hd; simp [renderMembers] at hd⟩
  | cons j rest ih =>
    intro st
    simp only [renderMembers]
    split
    · exact ih st
    · split
      · exact ⟨ArenaChain.refl st, by intro d hd; simp at hd⟩
      · obtain ⟨hchain, htgt⟩ := ih
          ⟨st.lightsPos + (allS.getD j default).LightList.length,
           st.verticesPos + (allS.getD j default).numVerts⟩
        refine ⟨ArenaChain.cons_draw _ _ _ hchain, ?_⟩
        intro d hd
        rcases List.mem_cons.mp hd with rfl | hd
        · rfl
        · exact htgt d hd

/-- The member loop preserves both capacity bounds (its appends are
guarded by the capacity check). -/
theorem renderMembers_capacity (cfg : Config) (allS : List LevelMeshSurface)
    (tS : LevelMeshSurface) (tIdx : Nat) :
    ∀ (members : List Nat) (st : ArenaState),
      st.lightsPos ≤ cfg.lightsBufferSize → st.verticesPos ≤ cfg.verticesBufferSize →
      (renderMembers cfg allS tS tIdx members st).1.lightsPos ≤ cfg.lightsBufferSize ∧
      (renderMembers cfg allS tS tIdx members st).1.verticesPos ≤ cfg.verticesBufferSize := by
  intro members
  induction members with
  | nil =>
    intro st hl hv
    exact ⟨hl, hv⟩
  | cons j rest ih =>
    intro st hl hv
    simp only [renderMembers]
    split
    · exact ih st hl hv
    · split
      · exact ⟨hl, hv⟩
      · rename_i hfull
        rw [not_or] at hfull
        refine ih _ ?_ ?_
        · show st.lightsPos + (allS.getD j default).LightList.length ≤ cfg.lightsBufferSize
          omega
        · show st.verticesPos + (allS.getD j default).numVerts ≤ cfg.verticesBufferSize
          omega

/-! ### The re-queue loop -/

theorem setNeedsUpdateAt_length (surfs : List LevelMeshSurface) (i : Nat) :
    (setNeedsUpdateAt surfs i).length = surfs.length := by
  unfold setNeedsUpdateAt
  split
  · exact List.length_set _ _ _
  · rfl

theorem requeue_length (l : List SelectedSurface) :
    ∀ surfs : List LevelMeshSurface, (requeue surfs l).length = surfs.length := by
  induction l with
  | nil => intro surfs; rfl
  | cons s rest ih =>
    intro surfs
    rw [requeue, ih, setNeedsUpdateAt_length]

theorem lt_length_of_get?_eq_some {l : List LevelMeshSurface} {n : Nat}
    {x : LevelMeshSurface} (h : l.get? n = some x) : n < l.length := by
  by_contra hc
  rw [List.get?_eq_none.mpr (Nat.le_of_not_lt hc)] at h
  cases h

theorem setNeedsUpdateAt_get_self (surfs : List LevelMeshSurface) (i : Nat)
    (h : i < surfs.length) :
    ∃ t, (setNeedsUpdateAt surfs i).get? i = some t ∧ t.needsUpdate = true := by
  unfold setNeedsUpdateAt
  split
  · rename_i u hu
    refine ⟨{ u with needsUpdate := true }, ?_, rfl⟩
    exact List.get?_set_eq_of_lt _ h
  · rename_i hnone
    exact absurd (List.get?_eq_none.mp hnone) (Nat.not_le_of_lt h)

theorem setNeedsUpdateAt_true_stable (surfs : List LevelMeshSurface) (i j : Nat)
    (t : LevelMeshSurface) (hget : surfs.get? i = some t) (ht : t.needsUpdate = true) :
    ∃ t', (setNeedsUpdateAt surfs j).get? i = some t' ∧ t'.needsUpdate = true := by
  unfold setNeedsUpdateAt
  split
  · rename_i u hu
    by_cases hij : j = i
    · subst hij
      rw [hget] at hu
      cases hu
      refine ⟨{ t with needsUpdate := true }, ?_, rfl⟩
      exact List.get?_set_eq_of_lt _ (lt_length_of_get?_eq_some hget)
    · exact ⟨t, by rw [List.get?_set_ne _ _ hij]; exact hget, ht⟩
  · exact ⟨t, hget, ht⟩

theorem requeue_true_stable (l : List SelectedSurface) :
    ∀ (surfs : List LevelMeshSurface) (i : Nat) (t : LevelMeshSurface),
      surfs.get? i = some t → t.needsUpdate = true →
      ∃ t', (requeue surfs l).get? i = some t' ∧ t'.needsUpdate = true := by
  induction l with
  | nil => intro surfs i t hget ht; exact ⟨t, hget, ht⟩
  | cons s rest ih =>
    intro surfs i t hget ht
    obtain ⟨t', hget', ht'⟩ := setNeedsUpdateAt_true_stable surfs i s.index t hget ht
    exact ih _ i t' hget' ht'

/-- The `while (i < count)` re-queue loop: every selected surface in the
list ends up with `needsUpdate = true` at its index. -/
theorem requeue_needsUpdate (l : List SelectedSurface) :
    ∀ (surfs : List LevelMeshSurface), ∀ s ∈ l, s.index < surfs.length →
      ∃ t, (requeue surfs l).get? s.index = some t ∧ t.needsUpdate = true := by
  induction l with
  | nil => intro surfs s hs; simp at hs
  | cons a rest ih =>
    intro surfs s hs hlt
    rcases List.mem_cons.mp hs with rfl | hs
    · obtain ⟨t, hget, ht⟩ := setNeedsUpdateAt_get_self surfs s.index hlt
      exact requeue_true_stable rest _ s.index t hget ht
    · exact ih (setNeedsUpdateAt surfs a.index) s hs
        (by rw [setNeedsUpdateAt_length]; exact hlt)

/-! ### The raytrace bake loop -/

/-- The raytrace loop only appends to the arenas: its output arena chains
from its input arena through the draws it issues. -/
theorem renderLoop_chain (cfg : Config) (mesh : LevelMesh) :
    ∀ (sel : List SelectedSurface) (surfs : List LevelMeshSurface) (st : ArenaState),
      ArenaChain st (renderLoop cfg mesh sel surfs st).2.2.1
        (renderLoop cfg mesh sel surfs st).2.2.2 := by
  intro sel
  induction sel with
  | nil => intro surfs st; exact ArenaChain.refl st
  | cons s rest ih =>
    intro surfs st
    by_cases hskip : s.surface.LightList.isEmpty = true
        ∧ dot3 s.surface.plane mesh.SunDirection < 0
    · simp only [renderLoop, if_pos hskip]
      exact ih surfs st
    · by_cases hfull : (renderMembers cfg surfs s.surface s.index
          (mesh.SmoothingGroups.getD s.surface.smoothingGroupIndex default).surfaces st).2.2
          = true
      · simp only [renderLoop, if_neg hskip, hfull, if_pos]
        exact (renderMembers_chain cfg surfs s.surface s.index _ st).1
      · simp only [renderLoop, if_neg hskip, hfull, Bool.false_eq_true, if_false]
        exact ArenaChain.append (renderMembers_chain cfg surfs s.surface s.index _ st).1
          (ih surfs _)

/-- The raytrace loop preserves both arena capacity bounds. -/
theorem renderLoop_capacity (cfg : Config) (mesh : LevelMesh) :
    ∀ (sel : List SelectedSurface) (surfs : List LevelMeshSurface) (st : ArenaState),
      st.lightsPos ≤ cfg.lightsBufferSize → st.verticesPos ≤ cfg.verticesBufferSize →
      (renderLoop cfg mesh sel surfs st).2.2.1.lightsPos ≤ cfg.lightsBufferSize ∧
      (renderLoop cfg mesh sel surfs st).2.2.1.verticesPos ≤ cfg.verticesBufferSize := by
  intro sel
  induction sel with
  | nil => intro surfs st hl hv; exact ⟨hl, hv⟩
  | cons s rest ih =>
    intro surfs st hl hv
    by_cases hskip : s.surface.LightList.isEmpty = true
        ∧ dot3 s.surface.plane mesh.SunDirection < 0
    · simp only [renderLoop, if_pos hskip]
      exact ih surfs st hl hv
    · by_cases hfull : (renderMembers cfg surfs s.surface s.index
          (mesh.SmoothingGroups.getD s.surface.smoothingGroupIndex default).surfaces st).2.2
          = true
      · simp only [renderLoop, if_neg hskip, hfull, if_pos]
        exact renderMembers_capacity cfg surfs s.surface s.index _ st hl hv
      · simp only [renderLoop, if_neg hskip, hfull, Bool.false_eq_true, if_false]
        obtain ⟨hl', hv'⟩ := renderMembers_capacity cfg surfs s.surface s.index _ st hl hv
        exact ih surfs _ hl' hv'

/-- The raytrace loop marks a rendered prefix and leaves a suffix: the
output selection is the input's first `k` entries marked rendered followed
by the rest untouched, the surface array is the input with the suffix
re-queued, and every draw targets either a rendered entry or the entry at
which the loop stopped — never an entry the skip rule applies to. -/
theorem renderLoop_split (cfg : Config) (mesh : LevelMesh) :
    ∀ (sel : List SelectedSurface) (surfs : List LevelMeshSurface) (st : ArenaState),
      ∃ k, k ≤ sel.length ∧
        (renderLoop cfg mesh sel surfs st).1
          = (sel.take k).map markRendered ++ sel.drop k ∧
        (renderLoop cfg mesh sel surfs st).2.1 = requeue surfs (sel.drop k) ∧
        ∀ d ∈ (renderLoop cfg mesh sel surfs st).2.2.2,
          ∃ s, (s ∈ sel.take k ∨ (sel.drop k).head? = some s) ∧ d.target = some s.index ∧
            ¬(s.surface.LightList.isEmpty = true
              ∧ dot3 s.surface.plane mesh.SunDirection < 0) := by
  intro sel
  induction sel with
  | nil =>
    intro surfs st
    exact ⟨0, le_refl _, by simp [renderLoop], by simp [renderLoop, requeue],
      by intro d hd; simp [renderLoop] at hd⟩
  | cons s rest ih =>
    intro surfs st
    by_cases hskip : s.surface.LightList.isEmpty = true
        ∧ dot3 s.surface.plane mesh.SunDirection < 0
    · obtain ⟨k, hk, h1, h2, h3⟩ := ih surfs st
      refine ⟨k + 1, by simpa using hk, ?_, ?_, ?_⟩
      · simp only [renderLoop, if_pos hskip, List.take_succ_cons, List.drop_succ_cons,
          List.map_cons, List.cons_append]
        rw [h1]
        rfl
      · simp only [renderLoop, if_pos hskip, List.drop_succ_cons]
        exact h2
      · intro d hd
        simp only [renderLoop, if_pos hskip] at hd
        obtain ⟨s', hs', hth⟩ := h3 d hd
        refine ⟨s', ?_, hth⟩
        rcases hs' with hmem | hhead
        · exact Or.inl (by simp only [List.take_succ_cons, List.mem_cons]; right; exact hmem)
        · exact Or.inr (by simpa using hhead)
    · by_cases hfull : (renderMembers cfg surfs s.surface s.index
          (mesh.SmoothingGroups.getD s.surface.smoothingGroupIndex default).surfaces st).2.2
          = true
      · refine ⟨0, Nat.zero_le _, ?_, ?_, ?_⟩
        · simp only [renderLoop, if_neg hskip, hfull, if_pos, List.take_zero,
            List.map_nil, List.drop_zero, List.nil_append]
        · simp only [renderLoop, if_neg hskip, hfull, if_pos, List.drop_zero]
        · intro d hd
          simp only [renderLoop, if_neg hskip, hfull, if_pos] at hd
          refine ⟨s, Or.inr (by simp), ?_, hskip⟩
          exact (renderMembers_chain cfg surfs s.surface s.index _ st).2 d hd
      · obtain ⟨k, hk, h1, h2, h3⟩ := ih surfs
          (renderMembers cfg surfs s.surface s.index
            (mesh.SmoothingGroups.getD s.surface.smoothingGroupIndex default).surfaces st).1
        refine ⟨k + 1, by simpa using hk, ?_, ?_, ?_⟩
        · simp only [renderLoop, if_neg hskip, hfull, Bool.false_eq_true, if_false,
            List.take_succ_cons, List.drop_succ_cons, List.map_cons, List.cons_append]
          rw [h1]
          rfl
        · simp only [renderLoop, if_neg hskip, hfull, Bool.false_eq_true, if_false,
            List.drop_succ_cons]
          exact h2
        · intro d hd
          simp only [renderLoop, if_neg hskip, hfull, Bool.false_eq_true, if_false,
            List.mem_append] at hd
          rcases hd with hd | hd
          · refine ⟨s, Or.inl (by simp), ?_, hskip⟩
            exact (renderMembers_chain cfg surfs s.surface s.index _ st).2 d hd
          · obtain ⟨s', hs', hth⟩ := h3 d hd
            refine ⟨s', ?_, hth⟩
            rcases hs' with hmem | hhead
            · exact Or.inl
                (by simp only [List.take_succ_cons, List.mem_cons]; right; exact hmem)
            · exact Or.inr (by simpa using hhead)

/-! ### Copy-back scan -/

theorem mem_insertPage (pages : List Nat) (a x : Nat) :
    x ∈ insertPage pages a ↔ x ∈ pages ∨ x = a := by
  unfold insertPage
  split
  · rename_i hmem
    constructor
    · exact Or.inl
    · rintro (h | rfl)
      · exact h
      · exact hmem
  · simp

theorem insertPage_nodup (pages : List Nat) (a : Nat) (h : pages.Nodup) :
    (insertPage pages a).Nodup := by
  unfold insertPage
  split
  · exact h
  · rename_i hmem
    simpa [List.nodup_append] using ⟨h, hmem⟩

theorem copyScan_regions (sel : List SelectedSurface) :
    (copyScan sel).regions = (sel.filter (·.Rendered)).map regionOf := by
  induction sel with
  | nil => rfl
  | cons s rest ih =>
    by_cases hr : s.Rendered
    · simp [copyScan, List.filter_cons, hr, ih]
    · simp [copyScan, List.filter_cons, hr, ih]

theorem copyScan_pixels (sel : List SelectedSurface) :
    (copyScan sel).pixels
      = ((sel.filter (·.Rendered)).map (·.surface.area)).sum % u32 := by
  induction sel with
  | nil => simp [copyScan]
  | cons s rest ih =>
    by_cases hr : s.Rendered
    · simp only [copyScan, List.filter_cons, hr, if_pos, List.map_cons, List.sum_cons, ih]
      simp only [u32]
      omega
    · simp [copyScan, List.filter_cons, hr, ih]

theorem copyScan_count (sel : List SelectedSurface) :
    (copyScan sel).surfaceCount = (sel.filter (·.Rendered)).length := by
  induction sel with
  | nil => rfl
  | cons s rest ih =>
    by_cases hr : s.Rendered
    · simp [copyScan, List.filter_cons, hr, ih]
    · simp [copyScan, List.filter_cons, hr, ih]

theorem copyScan_pages_mem (sel : List SelectedSurface) (p : Nat) :
    p ∈ (copyScan sel).pages
      ↔ p ∈ (sel.filter (·.Rendered)).map (·.surface.atlasPageIndex) := by
  induction sel with
  | nil => simp [copyScan]
  | cons s rest ih =>
    by_cases hr : s.Rendered
    · simp only [copyScan, hr, if_pos, List.filter_cons, List.map_cons, List.mem_cons,
        mem_insertPage, ih]
      tauto
    · simp [copyScan, List.filter_cons, hr, ih]

theorem copyScan_pages_nodup (sel : List SelectedSurface) :
    (copyScan sel).pages.Nodup := by
  induction sel with
  | nil => simp [copyScan]
  | cons s rest ih =>
    by_cases hr : s.Rendered
    · simp only [copyScan, hr, if_pos]
      exact insertPage_nodup _ _ ih
    · simpa [copyScan, hr] using ih

/-- In a list whose `index` fields are strictly increasing, the `index`
field determines the element. -/
theorem pairwise_index_inj (l : List SelectedSurface)
    (h : l.Pairwise (fun a b => a.index < b.index)) :
    ∀ a ∈ l, ∀ b ∈ l, a.index = b.index → a = b := by
  induction l with
  | nil => intro a ha; simp at ha
  | cons x rest ih =>
    intro a ha b hb heq
    obtain ⟨hx, hrest⟩ := List.pairwise_cons.mp h
    rcases List.mem_cons.mp ha with ha' | ha' <;> rcases List.mem_cons.mp hb with hb' | hb'
    · rw [ha', hb']
    · exfalso
      have := hx b hb'
      rw [ha'] at heq
      omega
    · exfalso
      have := hx a ha'
      rw [hb'] at heq
      omega
    · exact ih hrest a ha' b hb' heq

/-- The arena write discipline holds across a whole invocation. -/
theorem Raytrace_chain (cfg : Config) (bakeImageSize : Nat) (mesh : LevelMesh)
    (surfaces : List LevelMeshSurface) (st0 : ArenaState) (tel : Telemetry) :
    ArenaChain st0 (Raytrace cfg bakeImageSize mesh surfaces st0 tel).arena
      (Raytrace cfg bakeImageSize mesh surfaces st0 tel).draws := by
  simp only [Raytrace]
  split
  · exact ArenaChain.refl st0
  · split
    · exact ArenaChain.refl st0
    · unfold RaytraceBody
      exact ArenaChain.append (renderLoop_chain cfg mesh _ _ st0)
        (ArenaChain.append (quadAppend_chain _)
          (ArenaChain.append (quadAppend_chain _) (quadAppend_chain _)))

/-! ### C10 — arena append discipline and draw-range disjointness -/

/-- C10: within one invocation the arena write positions only grow, each
append advancing the position by exactly the records its draw wrote
(`BeginFrame`, the only reset, zeroes both); consequently the vertex and
light index ranges handed to distinct draw calls of the same invocation
are pairwise disjoint. -/
theorem C10_arena_discipline (cfg : Config) (bakeImageSize : Nat) (mesh : LevelMesh)
    (surfaces : List LevelMeshSurface) (st0 : ArenaState) (tel : Telemetry) :
    BeginFrame = ⟨0, 0⟩ ∧
    st0.lightsPos ≤ (Raytrace cfg bakeImageSize mesh surfaces st0 tel).arena.lightsPos ∧
    st0.verticesPos ≤ (Raytrace cfg bakeImageSize mesh surfaces st0 tel).arena.verticesPos ∧
    (Raytrace cfg bakeImageSize mesh surfaces st0 tel).arena.lightsPos
      = st0.lightsPos + (((Raytrace cfg bakeImageSize mesh surfaces st0 tel).draws.map
          fun d => d.lightEnd - d.lightStart).sum) ∧
    (Raytrace cfg bakeImageSize mesh surfaces st0 tel).arena.verticesPos
      = st0.verticesPos + (((Raytrace cfg bakeImageSize mesh surfaces st0 tel).draws.map
          fun d => d.vertexCount).sum) ∧
    (Raytrace cfg bakeImageSize mesh surfaces st0 tel).draws.Pairwise (fun a b =>
      rangesDisjoint a.firstVertex (a.firstVertex + a.vertexCount)
        b.firstVertex (b.firstVertex + b.vertexCount) ∧
      rangesDisjoint a.lightStart a.lightEnd b.lightStart b.lightEnd) := by
  have h := Raytrace_chain cfg bakeImageSize mesh surfaces st0 tel
  refine ⟨rfl, h.lights_le, h.verts_le, h.lights_sum, h.verts_sum, ?_⟩
  refine h.ordered.imp ?_
  intro a b hab
  obtain ⟨hv, hlight⟩ := hab
  constructor
  · intro k
    unfold rangesDisjoint at *
    omega
  · intro k
    rcases hlight with hlight | hlight <;> omega

/-! ### C3 — arena capacity -/

/-- Counterexample to C3 as stated: with a Geometry Arena of capacity 4,
one selected 4-vertex surface fills it exactly, and the unchecked 4-vertex
appends of the Resolve stage and the two Blur passes then push
`vertices.Pos` to 16, past `BufferSize`. -/
theorem C3_counterexample :
    (Raytrace ⟨1, 4⟩ 64 exMeshSolo [exLitSurf] BeginFrame ⟨0, 0, 0⟩).arena.verticesPos
      > (⟨1, 4⟩ : Config).verticesBufferSize := by
  decide

/-- C3 amended: every append made by the raytrace bake stage is preceded
by a capacity check, so the Light Arena position never exceeds
`lights.BufferSize` and the Geometry Arena position never exceeds
`vertices.BufferSize` during that stage; the Resolve and Blur stages then
append three 4-vertex full-screen quads without any check, so at the end
of the invocation `vertices.Pos` can exceed `vertices.BufferSize` by up to
12 (and by no more). -/
theorem C3_arena_bounds (cfg : Config) (bakeImageSize : Nat) (mesh : LevelMesh)
    (surfaces : List LevelMeshSurface) (st0 : ArenaState) (tel : Telemetry)
    (hl : st0.lightsPos ≤ cfg.lightsBufferSize)
    (hv : st0.verticesPos ≤ cfg.verticesBufferSize) :
    (Raytrace cfg bakeImageSize mesh surfaces st0 tel).arena.lightsPos
      ≤ cfg.lightsBufferSize ∧
    (Raytrace cfg bakeImageSize mesh surfaces st0 tel).arena.verticesPos
      ≤ cfg.verticesBufferSize + 12 := by
  simp only [Raytrace]
  split
  · exact ⟨hl, le_trans hv (Nat.le_add_right _ _)⟩
  · split
    · exact ⟨hl, le_trans hv (Nat.le_add_right _ _)⟩
    · simp only [RaytraceBody]
      have hcap := renderLoop_capacity cfg mesh
        (SelectSurfaces bakeImageSize surfaces).selected
        (SelectSurfaces bakeImageSize surfaces).surfaces st0 hl hv
      constructor
      · simpa [quadAppend] using hcap.1
      · have h2 := hcap.2
        simp only [quadAppend]
        omega

/-- Witness for the amended C3 at the overflow scenario of the
counterexample: the light arena stays within capacity and the vertex
arena ends within capacity + 12. -/
theorem C3_arena_bounds_witness :
    BeginFrame.lightsPos ≤ (⟨1, 4⟩ : Config).lightsBufferSize ∧
    BeginFrame.verticesPos ≤ (⟨1, 4⟩ : Config).verticesBufferSize ∧
    ((Raytrace ⟨1, 4⟩ 64 exMeshSolo [exLitSurf] BeginFrame ⟨0, 0, 0⟩).arena.lightsPos
        ≤ (⟨1, 4⟩ : Config).lightsBufferSize ∧
      (Raytrace ⟨1, 4⟩ 64 exMeshSolo [exLitSurf] BeginFrame ⟨0, 0, 0⟩).arena.verticesPos
        ≤ (⟨1, 4⟩ : Config).verticesBufferSize + 12) :=
  ⟨by decide, by decide,
    C3_arena_bounds ⟨1, 4⟩ 64 exMeshSolo [exLitSurf] BeginFrame ⟨0, 0, 0⟩
      (by decide) (by decide)⟩

/-! ### C1 — overflow re-queue -/

/-- Counterexample to C1 as stated: the smoothing group of the single
selected surface holds the target (1 light, 4 vertices, which fit) and a
second member with 10 vertices (which overflows the 8-slot Geometry
Arena).  The first member's draw was already recorded when the overflow
hits, so the invocation *does* perform a draw for a selected surface that
is not marked rendered and is re-queued. -/
theorem C1_counterexample :
    ∃ s ∈ (Raytrace ⟨8, 8⟩ 64 exMeshPair [exLitSurf, exBigSurf] BeginFrame ⟨0, 0, 0⟩).selected,
      s.Rendered = false ∧
      ∃ d ∈ (Raytrace ⟨8, 8⟩ 64 exMeshPair [exLitSurf, exBigSurf] BeginFrame ⟨0, 0, 0⟩).draws,
        d.target = some s.index := by
  norm_num [Raytrace, RaytraceBody, SelectSurfaces, selectLoop, RectPacker.mk0,
    RectPacker.insert, renderLoop, renderMembers, quadAppend, spacing, exMeshPair,
    exLitSurf, exBigSurf, exSkipSurf, ToUV, dot3, sub3, requeue, setNeedsUpdateAt,
    exLight, BeginFrame, CopyBakeImageResult, copyScan, insertPage, regionOf]

/-- C1 amended: when arena capacity runs out, the invocation's selected
list splits into a rendered prefix and an un-rendered suffix; every
suffix surface has `needsUpdate` restored to true and receives no atlas
copy, and no draw targets any suffix surface except possibly the first
one — the surface being processed when the overflow hit, whose draws for
group members appended before the overflow remain recorded. -/
theorem C1_overflow_requeue (cfg : Config) (bakeImageSize : Nat) (mesh : LevelMesh)
    (surfaces : List LevelMeshSurface) (st0 : ArenaState) (tel : Telemetry) :
    ∃ pre suf,
      (Raytrace cfg bakeImageSize mesh surfaces st0 tel).selected = pre ++ suf ∧
      (∀ s ∈ pre, s.Rendered = true) ∧
      (∀ s ∈ suf, s.Rendered = false) ∧
      (∀ s ∈ suf, ∃ t,
        (Raytrace cfg bakeImageSize mesh surfaces st0 tel).surfaces.get? s.index = some t ∧
          t.needsUpdate = true) ∧
      (Raytrace cfg bakeImageSize mesh surfaces st0 tel).regions = pre.map regionOf ∧
      ∀ d ∈ (Raytrace cfg bakeImageSize mesh surfaces st0 tel).draws,
        d.target = none ∨ (∃ s ∈ pre, d.target = some s.index) ∨
          ∃ s, suf.head? = some s ∧ d.target = some s.index := by
  simp only [Raytrace]
  split
  · exact ⟨[], [], by simp, by simp, by simp, by simp, by simp, by simp⟩
  · split
    · exact ⟨[], [], by simp, by simp, by simp, by simp, by simp, by simp⟩
    · simp only [RaytraceBody, CopyBakeImageResult]
      obtain ⟨k, hk, h1, h2, h3⟩ := renderLoop_split cfg mesh
        (SelectSurfaces bakeImageSize surfaces).selected
        (SelectSurfaces bakeImageSize surfaces).surfaces st0
      obtain ⟨hpw, hsel, hpass⟩ := SelectSurfaces_spec bakeImageSize surfaces
      refine ⟨((SelectSurfaces bakeImageSize surfaces).selected.take k).map markRendered,
        (SelectSurfaces bakeImageSize surfaces).selected.drop k, h1, ?_, ?_, ?_, ?_, ?_⟩
      · intro s hs
        obtain ⟨s₀, hs₀, rfl⟩ := List.mem_map.mp hs
        rfl
      · intro s hs
        exact (hsel s (List.drop_subset _ _ hs)).2.2.1
      · intro s hs
        obtain ⟨hget, hnu, hrf, hx, hy, hset⟩ := hsel s (List.drop_subset _ _ hs)
        have hlt : s.index < (SelectSurfaces bakeImageSize surfaces).surfaces.length :=
          lt_length_of_get?_eq_some hset
        show ∃ t, (renderLoop cfg mesh (SelectSurfaces bakeImageSize surfaces).selected
          (SelectSurfaces bakeImageSize surfaces).surfaces st0).2.1.get? s.index
            = some t ∧ t.needsUpdate = true
        rw [h2]
        exact requeue_needsUpdate _ _ s hs hlt
      · show (copyScan (renderLoop cfg mesh (SelectSurfaces bakeImageSize surfaces).selected
          (SelectSurfaces bakeImageSize surfaces).surfaces st0).1).regions = _
        rw [copyScan_regions, h1, List.filter_append]
        have hpre : (((SelectSurfaces bakeImageSize surfaces).selected.take k).map
            markRendered).filter (·.Rendered)
            = ((SelectSurfaces bakeImageSize surfaces).selected.take k).map markRendered := by
          rw [List.filter_eq_self]
          intro a ha
          obtain ⟨a₀, _, rfl⟩ := List.mem_map.mp ha
          rfl
        have hsuf : ((SelectSurfaces bakeImageSize surfaces).selected.drop k).filter
            (·.Rendered) = [] := by
          rw [List.filter_eq_nil]
          intro a ha
          have := (hsel a (List.drop_subset _ _ ha)).2.2.1
          simp [this]
        rw [hpre, hsuf, List.append_nil]
      · intro d hd
        rcases List.mem_append.mp hd with hd | hd
        · obtain ⟨s', hloc, htgt, _⟩ := h3 d hd
          rcases hloc with hmem | hhead
          · exact Or.inr (Or.inl ⟨markRendered s', List.mem_map_of_mem _ hmem, htgt⟩)
          · exact Or.inr (Or.inr ⟨s', hhead, htgt⟩)
        · simp only [List.mem_cons, List.not_mem_nil, or_false] at hd
          rcases hd with rfl | rfl | rfl
          · exact Or.inl rfl
          · exact Or.inl rfl
          · exact Or.inl rfl

/-! ### C5 — skip rule for unlit back-facing surfaces -/

/-- Counterexample to C5 as stated: with zero-capacity arenas the first
selected surface overflows immediately and the stage terminates before
reaching the second selected surface, which is unlit and back-facing: it
is left un-rendered and no copy-back region is emitted at all. -/
theorem C5_counterexample :
    ∃ s ∈ (Raytrace ⟨0, 0⟩ 64 exMeshPair [exLitSurf, exSkipSurf]
        BeginFrame ⟨0, 0, 0⟩).selected,
      s.surface.LightList.isEmpty = true ∧
      dot3 s.surface.plane exMeshPair.SunDirection < 0 ∧
      s.Rendered = false ∧
      (Raytrace ⟨0, 0⟩ 64 exMeshPair [exLitSurf, exSkipSurf]
        BeginFrame ⟨0, 0, 0⟩).regions = [] := by
  norm_num [Raytrace, RaytraceBody, SelectSurfaces, selectLoop, RectPacker.mk0,
    RectPacker.insert, renderLoop, renderMembers, quadAppend, spacing, exMeshPair,
    exLitSurf, exSkipSurf, ToUV, dot3, sub3, requeue, setNeedsUpdateAt, exLight,
    BeginFrame, CopyBakeImageResult, copyScan, insertPage, regionOf]

/-- C5 amended: whenever the raytrace stage actually reaches an unlit,
sun-back-facing selected surface and marks it rendered (i.e. unless an
arena overflow at an earlier selection terminated the stage first), it
does so via the skip rule: no draw of the invocation targets it, and its
canvas-to-atlas copy region is still emitted. -/
theorem C5_skip_rule (cfg : Config) (bakeImageSize : Nat) (mesh : LevelMesh)
    (surfaces : List LevelMeshSurface) (st0 : ArenaState) (tel : Telemetry)
    (s : SelectedSurface)
    (hs : s ∈ (Raytrace cfg bakeImageSize mesh surfaces st0 tel).selected)
    (hr : s.Rendered = true)
    (hl : s.surface.LightList.isEmpty = true)
    (hdot : dot3 s.surface.plane mesh.SunDirection < 0) :
    (∀ d ∈ (Raytrace cfg bakeImageSize mesh surfaces st0 tel).draws,
      d.target ≠ some s.index) ∧
    regionOf s ∈ (Raytrace cfg bakeImageSize mesh surfaces st0 tel).regions := by
  by_cases h1 : surfaces.isEmpty = true
  · rw [Raytrace, if_pos h1] at hs
    simp at hs
  · by_cases h2 : (SelectSurfaces bakeImageSize surfaces).selected.isEmpty = true
    · simp only [Raytrace, if_neg h1, if_pos h2] at hs
      simp at hs
    · simp only [Raytrace, if_neg h1, if_neg h2, RaytraceBody, CopyBakeImageResult] at hs ⊢
      obtain ⟨k, hk, hr1, hr2, hr3⟩ := renderLoop_split cfg mesh
        (SelectSurfaces bakeImageSize surfaces).selected
        (SelectSurfaces bakeImageSize surfaces).surfaces st0
      obtain ⟨hpw, hsel, hpass⟩ := SelectSurfaces_spec bakeImageSize surfaces
      have hs0 := hs
      rw [hr1] at hs
      rcases List.mem_append.mp hs with hpre | hsuf
      · obtain ⟨s₀, hs₀, hmark⟩ := List.mem_map.mp hpre
        have hsurf : s.surface = s₀.surface := by rw [← hmark]; rfl
        have hidx₀ : s.index = s₀.index := by rw [← hmark]; rfl
        constructor
        · intro d hd htgt
          rcases List.mem_append.mp hd with hd | hd
          · obtain ⟨s', hloc, htgt', hskip'⟩ := hr3 d hd
            rw [htgt'] at htgt
            have hidx : s'.index = s.index := by
              injection htgt
            have hs'mem : s' ∈ (SelectSurfaces bakeImageSize surfaces).selected := by
              rcases hloc with hmem | hhead
              · exact List.take_subset _ _ hmem
              · exact List.drop_subset _ _ (List.mem_of_mem_head? hhead)
            have hs₀mem : s₀ ∈ (SelectSurfaces bakeImageSize surfaces).selected :=
              List.take_subset _ _ hs₀
            have heq : s' = s₀ :=
              pairwise_index_inj _ hpw s' hs'mem s₀ hs₀mem (hidx.trans hidx₀)
            apply hskip'
            rw [heq, ← hsurf]
            exact ⟨hl, hdot⟩
          · simp only [List.mem_cons, List.not_mem_nil, or_false] at hd
            rcases hd with rfl | rfl | rfl <;> exact Option.noConfusion htgt
        · show regionOf s ∈ (copyScan (renderLoop cfg mesh
            (SelectSurfaces bakeImageSize surfaces).selected
            (SelectSurfaces bakeImageSize surfaces).surfaces st0).1).regions
          rw [copyScan_regions]
          apply List.mem_map_of_mem
          rw [List.mem_filter]
          exact ⟨hs0, hr⟩
      · have hfalse := (hsel s (List.drop_subset _ _ hsuf)).2.2.1
        rw [hfalse] at hr
        cases hr

/-- Witness for the amended C5: a single unlit back-facing surface is
selected, skipped without draws, and its region is still copied back. -/
theorem C5_skip_rule_witness :
    ((⟨0, exSkipSurf, 1, 1, true⟩ : SelectedSurface)
        ∈ (Raytrace ⟨8, 8⟩ 64 exMeshSolo [exSkipSurf] BeginFrame ⟨0, 0, 0⟩).selected) ∧
    (⟨0, exSkipSurf, 1, 1, true⟩ : SelectedSurface).Rendered = true ∧
    (⟨0, exSkipSurf, 1, 1, true⟩ : SelectedSurface).surface.LightList.isEmpty = true ∧
    dot3 (⟨0, exSkipSurf, 1, 1, true⟩ : SelectedSurface).surface.plane
      exMeshSolo.SunDirection < 0 ∧
    ((∀ d ∈ (Raytrace ⟨8, 8⟩ 64 exMeshSolo [exSkipSurf] BeginFrame ⟨0, 0, 0⟩).draws,
        d.target ≠ some (⟨0, exSkipSurf, 1, 1, true⟩ : SelectedSurface).index) ∧
      regionOf ⟨0, exSkipSurf, 1, 1, true⟩
        ∈ (Raytrace ⟨8, 8⟩ 64 exMeshSolo [exSkipSurf] BeginFrame ⟨0, 0, 0⟩).regions) :=
  ⟨by simp [Raytrace, RaytraceBody, SelectSurfaces, selectLoop, RectPacker.mk0,
      RectPacker.insert, renderLoop, renderMembers, quadAppend, spacing, exMeshSolo,
      exSkipSurf, dot3, BeginFrame, CopyBakeImageResult, copyScan, insertPage, regionOf],
    rfl, rfl,
    by simp [dot3, exSkipSurf, exMeshSolo],
    C5_skip_rule ⟨8, 8⟩ 64 exMeshSolo [exSkipSurf] BeginFrame ⟨0, 0, 0⟩ _
      (by simp [Raytrace, RaytraceBody, SelectSurfaces, selectLoop, RectPacker.mk0,
        RectPacker.insert, renderLoop, renderMembers, quadAppend, spacing, exMeshSolo,
        exSkipSurf, dot3, BeginFrame, CopyBakeImageResult, copyScan, insertPage, regionOf])
      rfl rfl (by simp [dot3, exSkipSurf, exMeshSolo])⟩

/-! ### C7 — deduplicated page transitions -/

theorem pageToDst_injective : Function.Injective CopyCommand.pageToDst := by
  intro a b h
  injection h

theorem pageToShaderRead_injective : Function.Injective CopyCommand.pageToShaderRead := by
  intro a b h
  injection h

/-- C7: during atlas copy-back every atlas page index appearing among the
rendered surfaces' placements receives exactly one layout transition to
copy-destination and exactly one back to shader-readable — and pages not
touched receive none — however many surfaces land on the page (the page
set is deduplicated); an invocation in which no selected surface was
marked rendered issues no copy commands and no barriers at all. -/
theorem C7_page_transitions (selected : List SelectedSurface) (p : Nat) :
    (selected.filter (·.Rendered) = [] → (CopyBakeImageResult selected).commands = []) ∧
    ((CopyBakeImageResult selected).commands.count (CopyCommand.pageToDst p)
      = if p ∈ (selected.filter (·.Rendered)).map (·.surface.atlasPageIndex)
        then 1 else 0) ∧
    ((CopyBakeImageResult selected).commands.count (CopyCommand.pageToShaderRead p)
      = if p ∈ (selected.filter (·.Rendered)).map (·.surface.atlasPageIndex)
        then 1 else 0) := by
  by_cases hflt : selected.filter (·.Rendered) = []
  · have hreg : (copyScan selected).regions = [] := by
      rw [copyScan_regions, hflt]
      rfl
    have hcmd : (CopyBakeImageResult selected).commands = [] := by
      simp [CopyBakeImageResult, hreg]
    refine ⟨fun _ => hcmd, ?_, ?_⟩ <;> simp [hcmd, hflt]
  · have hreg : ¬(copyScan selected).regions.isEmpty = true := by
      rw [copyScan_regions]
      simp only [List.isEmpty_iff, List.map_eq_nil]
      exact hflt
    have hcmd : (CopyBakeImageResult selected).commands
        = CopyCommand.canvasToSrc :: ((copyScan selected).pages.map CopyCommand.pageToDst
          ++ [CopyCommand.copyImage (copyScan selected).regions]
          ++ (copyScan selected).pages.map CopyCommand.pageToShaderRead) := by
      simp [CopyBakeImageResult, hreg]
    have hnd := copyScan_pages_nodup selected
    refine ⟨fun h => absurd h hflt, ?_, ?_⟩
    · rw [hcmd]
      rw [List.count_cons, List.count_append, List.count_append]
      have c1 : ((copyScan selected).pages.map CopyCommand.pageToDst).count
          (CopyCommand.pageToDst p) = (copyScan selected).pages.count p :=
        List.count_map_of_injective _ _ pageToDst_injective _
      have c2 : ([CopyCommand.copyImage (copyScan selected).regions]).count
          (CopyCommand.pageToDst p) = 0 := by simp
      have c3 : ((copyScan selected).pages.map CopyCommand.pageToShaderRead).count
          (CopyCommand.pageToDst p) = 0 := by
        rw [List.count_eq_zero]
        intro hmem
        obtain ⟨a, _, ha⟩ := List.mem_map.mp hmem
        exact CopyCommand.noConfusion ha
      rw [c1, c2, c3, List.count_eq_of_nodup hnd]
      simp only [copyScan_pages_mem]
      split <;> simp
    · rw [hcmd]
      rw [List.count_cons, List.count_append, List.count_append]
      have c1 : ((copyScan selected).pages.map CopyCommand.pageToShaderRead).count
          (CopyCommand.pageToShaderRead p) = (copyScan selected).pages.count p :=
        List.count_map_of_injective _ _ pageToShaderRead_injective _
      have c2 : ([CopyCommand.copyImage (copyScan selected).regions]).count
          (CopyCommand.pageToShaderRead p) = 0 := by simp
      have c3 : ((copyScan selected).pages.map CopyCommand.pageToDst).count
          (CopyCommand.pageToShaderRead p) = 0 := by
        rw [List.count_eq_zero]
        intro hmem
        obtain ⟨a, _, ha⟩ := List.mem_map.mp hmem
        exact CopyCommand.noConfusion ha
      rw [c1, c2, c3, List.count_eq_of_nodup hnd]
      simp only [copyScan_pages_mem]
      split <;> simp

/-- The only `copyImage` command `CopyBakeImageResult` can record carries
exactly its region list. -/
theorem copyImage_mem_commands (selected : List SelectedSurface) (rs : List VkImageCopy)
    (h : CopyCommand.copyImage rs ∈ (CopyBakeImageResult selected).commands) :
    rs = (CopyBakeImageResult selected).regions := by
  by_cases hreg : (copyScan selected).regions.isEmpty = true
  · rw [CopyBakeImageResult] at h
    simp only [hreg, if_pos] at h
    simp at h
  · rw [CopyBakeImageResult] at h ⊢
    simp only [hreg, Bool.false_eq_true, if_false] at h
    rcases List.mem_cons.mp h with hc | hc
    · exact CopyCommand.noConfusion hc
    rcases List.mem_append.mp hc with hc | hc
    · rcases List.mem_append.mp hc with hc | hc
      · obtain ⟨a, _, ha⟩ := List.mem_map.mp hc
        exact CopyCommand.noConfusion ha
      · rw [List.mem_singleton] at hc
        injection hc with h'

    · obtain ⟨a, _, ha⟩ := List.mem_map.mp hc
      exact CopyCommand.noConfusion ha

/-! ### C9 — copy-back geometry -/

/-- C9: the copy-back regions are exactly one per rendered selected
surface: each reads the `texWidth × texHeight` interior of the surface's
padded canvas rectangle (source offset = packer placement shifted one
texel inward in each axis, so the pad border and spacing are never
copied) and writes exactly the surface's permanent atlas rectangle on its
atlas page layer; the invocation's only image-copy command carries
exactly this region list, so no atlas texel outside the rendered
surfaces' rectangles is written. -/
theorem C9_copy_geometry (cfg : Config) (bakeImageSize : Nat) (mesh : LevelMesh)
    (surfaces : List LevelMeshSurface) (st0 : ArenaState) (tel : Telemetry) :
    (Raytrace cfg bakeImageSize mesh surfaces st0 tel).regions
      = (((Raytrace cfg bakeImageSize mesh surfaces st0 tel).selected.filter
          (·.Rendered)).map regionOf) ∧
    (∀ s ∈ (Raytrace cfg bakeImageSize mesh surfaces st0 tel).selected,
      (regionOf s).srcX = (paddedRect s).x + 1 ∧
      (regionOf s).srcY = (paddedRect s).y + 1 ∧
      (regionOf s).width + 2 = (paddedRect s).w ∧
      (regionOf s).height + 2 = (paddedRect s).h ∧
      (regionOf s).dstX = s.surface.atlasX ∧
      (regionOf s).dstY = s.surface.atlasY ∧
      (regionOf s).dstLayer = s.surface.atlasPageIndex) ∧
    (∀ rs, CopyCommand.copyImage rs
        ∈ (Raytrace cfg bakeImageSize mesh surfaces st0 tel).commands →
      rs = (Raytrace cfg bakeImageSize mesh surfaces st0 tel).regions) := by
  by_cases h1 : surfaces.isEmpty = true
  · simp only [Raytrace, if_pos h1]
    refine ⟨by simp, ?_, ?_⟩
    · intro s hs
      simp at hs
    · intro rs h
      simp at h
  · by_cases h2 : (SelectSurfaces bakeImageSize surfaces).selected.isEmpty = true
    · simp only [Raytrace, if_neg h1, if_pos h2]
      refine ⟨by simp, ?_, ?_⟩
      · intro s hs
        simp at hs
      · intro rs h
        simp at h
    · simp only [Raytrace, if_neg h1, if_neg h2, RaytraceBody]
      obtain ⟨k, hk, hr1, hr2, hr3⟩ := renderLoop_split cfg mesh
        (SelectSurfaces bakeImageSize surfaces).selected
        (SelectSurfaces bakeImageSize surfaces).surfaces st0
      obtain ⟨hpw, hsel, hpass⟩ := SelectSurfaces_spec bakeImageSize surfaces
      refine ⟨copyScan_regions _, ?_, ?_⟩
      · intro s hs
        rw [hr1] at hs
        have hx : 1 ≤ s.X ∧ 1 ≤ s.Y := by
          rcases List.mem_append.mp hs with hp | hsuf
          · obtain ⟨s₀, hs₀, rfl⟩ := List.mem_map.mp hp
            have h := hsel s₀ (List.take_subset _ _ hs₀)
            exact ⟨h.2.2.2.1, h.2.2.2.2.1⟩
          · have h := hsel s (List.drop_subset _ _ hsuf)
            exact ⟨h.2.2.2.1, h.2.2.2.2.1⟩
        refine ⟨?_, ?_, rfl, rfl, rfl, rfl, rfl⟩
        · show s.X = s.X - 1 + 1
          omega
        · show s.Y = s.Y - 1 + 1
          omega
      · intro rs h
        exact copyImage_mem_commands _ rs h

/-! ### C6 — telemetry -/

/-- The per-invocation pixel sum does not depend on the incoming
telemetry values. -/
theorem Raytrace_selected_tel (cfg : Config) (bakeImageSize : Nat) (mesh : LevelMesh)
    (surfaces : List LevelMeshSurface) (st0 : ArenaState) (tel tel' : Telemetry) :
    (Raytrace cfg bakeImageSize mesh surfaces st0 tel).selected
      = (Raytrace cfg bakeImageSize mesh surfaces st0 tel').selected := by
  by_cases h1 : surfaces.isEmpty = true
  · simp [Raytrace, h1]
  · by_cases h2 : (SelectSurfaces bakeImageSize surfaces).selected.isEmpty = true
    · simp [Raytrace, h1, h2]
    · simp [Raytrace, RaytraceBody, h1, h2]

/-- One frame adds its rendered pixel sum to `totalPixelCount` with
`uint32_t` wraparound. -/
theorem engineStep_frame_total (tel : Telemetry) (cfg : Config) (bakeImageSize : Nat)
    (mesh : LevelMesh) (surfaces : List LevelMeshSurface)
    (htel : tel.totalPixelCount < u32) :
    (engineStep tel (.frame cfg bakeImageSize mesh surfaces)).totalPixelCount
      = (tel.totalPixelCount
          + eventPixels (.frame cfg bakeImageSize mesh surfaces)) % u32 := by
  unfold engineStep eventPixels
  by_cases h1 : surfaces.isEmpty = true
  · simp [Raytrace, h1, Nat.mod_eq_of_lt htel]
  · by_cases h2 : (SelectSurfaces bakeImageSize surfaces).selected.isEmpty = true
    · simp [Raytrace, h1, h2, Nat.mod_eq_of_lt htel]
    · simp only [Raytrace, RaytraceBody, CopyBakeImageResult, if_neg h1, if_neg h2]
      rw [copyScan_pixels]

/-- Every event keeps `totalPixelCount` a `uint32_t` value. -/
theorem engineStep_total_lt (tel : Telemetry) (e : Event)
    (htel : tel.totalPixelCount < u32) :
    (engineStep tel e).totalPixelCount < u32 := by
  match e with
  | .setLevelMesh => exact (by decide : (0 : Nat) < u32)
  | .frame cfg bakeImageSize mesh surfaces =>
    rw [engineStep_frame_total tel cfg bakeImageSize mesh surfaces htel]
    exact Nat.mod_lt _ (by decide)

/-- C6 amended: the pixel counters are `uint32_t`, so each invocation adds
its rendered pixel sum to `totalPixelCount` modulo `2^32`: across any run
without a `SetLevelMesh` the counter equals the accumulated rendered area
reduced modulo `2^32`, and it is monotone and exactly the accumulated sum
as long as that sum stays below `2^32` — not across arbitrary engine
lifetimes, where wraparound (or the `SetLevelMesh` reset) can decrease
it.  `SetLevelMesh` resets all three counters to zero, and every
invocation that selects at least one surface sets `lastPixelCount` to its
own (wrapped) rendered pixel sum and `lastSurfaceCount` to its own
rendered surface count. -/
theorem C6_telemetry :
    (∀ (tel : Telemetry) (e : Event), tel.totalPixelCount < u32 → e ≠ .setLevelMesh →
      (engineStep tel e).totalPixelCount
        = (tel.totalPixelCount + eventPixels e) % u32 ∧
      (engineStep tel e).totalPixelCount < u32 ∧
      (tel.totalPixelCount + eventPixels e < u32 →
        (engineStep tel e).totalPixelCount = tel.totalPixelCount + eventPixels e ∧
        tel.totalPixelCount ≤ (engineStep tel e).totalPixelCount)) ∧
    (∀ tel : Telemetry, engineStep tel .setLevelMesh = ⟨0, 0, 0⟩) ∧
    (∀ (tel : Telemetry) (evs : List Event), tel.totalPixelCount < u32 →
      (∀ e ∈ evs, e ≠ .setLevelMesh) →
      (engineRun tel evs).totalPixelCount
        = (tel.totalPixelCount + (evs.map eventPixels).sum) % u32 ∧
      (tel.totalPixelCount + (evs.map eventPixels).sum < u32 →
        (engineRun tel evs).totalPixelCount
          = tel.totalPixelCount + (evs.map eventPixels).sum)) ∧
    (∀ (tel : Telemetry) (cfg : Config) (bakeImageSize : Nat) (mesh : LevelMesh)
        (surfaces : List LevelMeshSurface),
      surfaces.isEmpty = false →
      (SelectSurfaces bakeImageSize surfaces).selected.isEmpty = false →
      (engineStep tel (.frame cfg bakeImageSize mesh surfaces)).lastPixelCount
        = eventPixels (.frame cfg bakeImageSize mesh surfaces) ∧
      (engineStep tel (.frame cfg bakeImageSize mesh surfaces)).lastSurfaceCount
        = ((Raytrace cfg bakeImageSize mesh surfaces BeginFrame tel).selected.filter
            (·.Rendered)).length) := by
  have hstep : ∀ (tel : Telemetry) (e : Event), tel.totalPixelCount < u32 →
      e ≠ .setLevelMesh →
      (engineStep tel e).totalPixelCount
        = (tel.totalPixelCount + eventPixels e) % u32 := by
    intro tel e htel he
    match e with
    | .setLevelMesh => exact absurd rfl he
    | .frame cfg bakeImageSize mesh surfaces =>
      exact engineStep_frame_total tel cfg bakeImageSize mesh surfaces htel
  refine ⟨?_, fun _ => rfl, ?_, ?_⟩
  · intro tel e htel he
    refine ⟨hstep tel e htel he, engineStep_total_lt tel e htel, ?_⟩
    intro hnw
    rw [hstep tel e htel he, Nat.mod_eq_of_lt hnw]
    exact ⟨rfl, Nat.le_add_right _ _⟩
  · intro tel evs
    induction evs generalizing tel with
    | nil =>
      intro htel _
      refine ⟨?_, fun _ => by simp [engineRun]⟩
      simp [engineRun, Nat.mod_eq_of_lt htel]
    | cons e rest ih =>
      intro htel hall
      have he := hall e (List.mem_cons_self _ _)
      have htel' : (engineStep tel e).totalPixelCount < u32 :=
        engineStep_total_lt tel e htel
      obtain ⟨ih1, ih2⟩ := ih (engineStep tel e) htel'
        (fun e' he' => hall e' (List.mem_cons_of_mem _ he'))
      constructor
      · show (engineRun (engineStep tel e) rest).totalPixelCount = _
        rw [ih1, hstep tel e htel he, Nat.mod_add_mod]
        simp only [List.map_cons, List.sum_cons, Nat.add_assoc]
      · intro hnw
        simp only [List.map_cons, List.sum_cons] at hnw
        have hpxlt : tel.totalPixelCount + eventPixels e < u32 := by omega
        have hstep_eq : (engineStep tel e).totalPixelCount
            = tel.totalPixelCount + eventPixels e := by
          rw [hstep tel e htel he, Nat.mod_eq_of_lt hpxlt]
        show (engineRun (engineStep tel e) rest).totalPixelCount = _
        rw [ih2 (by rw [hstep_eq]; omega), hstep_eq]
        simp only [List.map_cons, List.sum_cons, Nat.add_assoc]
  · intro tel cfg bakeImageSize mesh surfaces h1 h2
    have h1p : ¬surfaces.isEmpty = true := by simp [h1]
    have h2p : ¬(SelectSurfaces bakeImageSize surfaces).selected.isEmpty = true := by
      simp [h2]
    constructor
    · simp only [engineStep, eventPixels, Raytrace, RaytraceBody, CopyBakeImageResult,
        if_neg h1p, if_neg h2p]
      rw [copyScan_pixels]
    · simp only [engineStep, Raytrace, RaytraceBody, CopyBakeImageResult,
        if_neg h1p, if_neg h2p]
      rw [copyScan_count]

/-- Counterexample to C6 as stated: a frame renders one 1-pixel surface
(`totalPixelCount = 1`); `SetLevelMesh` then resets the counter to zero,
so after the next invocation `totalPixelCount = 0 < 1` — not monotone
across the engine's lifetime; and a later invocation that selects nothing
leaves `lastPixelCount` at the stale value 1 although its own rendered
pixel sum is 0. -/
theorem C6_counterexample :
    (engineRun ⟨0, 0, 0⟩ [Event.frame ⟨1, 4⟩ 64 exMeshSolo [exLitSurf]]).totalPixelCount
      = 1 ∧
    (engineRun ⟨0, 0, 0⟩ [Event.frame ⟨1, 4⟩ 64 exMeshSolo [exLitSurf], Event.setLevelMesh,
        Event.frame ⟨1, 4⟩ 64 exMeshSolo []]).totalPixelCount = 0 ∧
    (engineRun ⟨0, 0, 0⟩ [Event.frame ⟨1, 4⟩ 64 exMeshSolo [exLitSurf],
        Event.frame ⟨1, 4⟩ 64 exMeshSolo []]).lastPixelCount = 1 ∧
    eventPixels (Event.frame ⟨1, 4⟩ 64 exMeshSolo ([] : List LevelMeshSurface)) = 0 := by
  decide

end VkLightmap
